import Mathlib

/-!
Shallow embedding of the ST-CharacterPreview browser extension
(`src/index.js`) and proofs about its modal lifecycle, section builder,
greeting navigator, settings store and tab-reorder logic.

Conventions of the embedding:
* DOM elements (boxes, event handlers) are identified by natural numbers;
  the DOM state that the code mutates (the box attached to `document.body`,
  the document-level `keydown` listeners, the right-nav drawer classes) is
  carried explicitly in a `ModalState` record.
* JS strings are Lean `String`s; `String.trim` models `String.prototype.trim`.
* Optional / possibly-`undefined` record fields are `Option`s; the
  `?.` / `??` / `||` defensive accesses of the source are translated
  case by case.
* Fallible code paths (a JS `TypeError` on `undefined[0]`, a strict-mode
  write to a primitive) are modelled by `Option` results, `none` meaning
  the original code would throw.
-/

/-- Per-tab display configuration, one value of the `defaultTabConfig`
mapping of `src/index.js` (lines 17-24): `{ order, visible, expanded }`. -/
structure TabCfg where
  order : Int
  visible : Bool
  expanded : Bool
deriving DecidableEq, Repr

/-- The hard-coded `defaultTabConfig` of `src/index.js` lines 17-24,
as an association list in declaration order (JS object insertion order). -/
def defaultTabConfig : List (String × TabCfg) :=
  [("description",     { order := 0, visible := true, expanded := true }),
   ("firstMessage",    { order := 1, visible := true, expanded := false }),
   ("scenario",        { order := 2, visible := true, expanded := false }),
   ("personality",     { order := 3, visible := true, expanded := false }),
   ("creatorNotes",    { order := 4, visible := true, expanded := false }),
   ("exampleMessages", { order := 5, visible := true, expanded := false })]

/-- A character record as consumed by `createCharacterBox` (after the
`characterData?.data || characterData` unwrap): every field optional,
`none` modelling an absent / `undefined` JS property. -/
structure CharRecord where
  name : Option String := none
  description : Option String := none
  creator_notes : Option String := none
  scenario : Option String := none
  avatar : Option String := none
  first_mes : Option String := none
  personality : Option String := none
  mes_example : Option String := none
  alternate_greetings : Option (List String) := none
deriving DecidableEq, Repr

/-- Drop leading whitespace characters from a character list. -/
def dropLeadingWs : List Char → List Char
  | [] => []
  | c :: rest => if c.isWhitespace then dropLeadingWs rest else c :: rest

/-- `String.prototype.trim`: strip leading and trailing whitespace.
Defined structurally on the character list so that it evaluates by kernel
reduction (Lean's own `String.trim` does not). -/
def jsTrim (s : String) : String :=
  ⟨((dropLeadingWs ((dropLeadingWs s.data).reverse)).reverse)⟩

/-- The body of the `for (const alt of alternates)` loop of
`getAllFirstMessages` (`src/index.js` lines 127-131): keep `alt.trim()`
whenever `alt && alt.trim()` is truthy. -/
def collectAlternates : List String → List String
  | [] => []
  | alt :: rest =>
    if alt ≠ "" ∧ jsTrim alt ≠ "" then jsTrim alt :: collectAlternates rest
    else collectAlternates rest

/-- `getAllFirstMessages` (`src/index.js` lines 118-135): the trimmed
primary greeting (`data?.first_mes?.trim() || ''`), when truthy, followed by
the trimmed truthy alternates. -/
def getAllFirstMessages (data : CharRecord) : List String :=
  let firstMes : String :=
    match data.first_mes with
    | some s => jsTrim s
    | none => ""
  let alternates := data.alternate_greetings.getD []
  (if firstMes = "" then [] else [firstMes]) ++ collectAlternates alternates

/-- The state of the swipe-mode greeting navigator of
`createSwipeFirstMessageSection` (`src/index.js` lines 143-223): the fixed
`messages` array and the mutable `currentIndex` closure variable. -/
structure SwipeNav where
  messages : List String
  currentIndex : Nat
deriving DecidableEq, Repr

/-- Initial navigator state: `let currentIndex = 0` (`src/index.js` line 177). -/
def swipeInit (messages : List String) : SwipeNav :=
  { messages := messages, currentIndex := 0 }

/-- The left-arrow click handler (`src/index.js` lines 192-198):
`if (currentIndex > 0) currentIndex--`. -/
def swipeLeftClick (s : SwipeNav) : SwipeNav :=
  if 0 < s.currentIndex then { s with currentIndex := s.currentIndex - 1 } else s

/-- The right-arrow click handler (`src/index.js` lines 200-206):
`if (currentIndex < messages.length - 1) currentIndex++`. -/
def swipeRightClick (s : SwipeNav) : SwipeNav :=
  if s.currentIndex < s.messages.length - 1 then
    { s with currentIndex := s.currentIndex + 1 }
  else s

/-- The header text maintained by `createSwipeFirstMessageSection` /
`updateDisplay` (`src/index.js` lines 154-155, 185, 211):
`` `First Message (${currentIndex + 1}/${messages.length})` `` when there is
more than one message, plain `"First Message"` otherwise. -/
def swipeHeaderText (s : SwipeNav) : String :=
  let n := s.messages.length
  if 1 < n then
    "First Message (" ++ toString (s.currentIndex + 1) ++ "/" ++ toString n ++ ")"
  else "First Message"

/-- Whether the left arrow carries the `--disabled` class: set initially
(`src/index.js` line 161) and maintained by `updateDisplay` line 187 as
`currentIndex === 0`. -/
def leftArrowDisabled (s : SwipeNav) : Bool :=
  s.currentIndex == 0

/-- Whether the right arrow carries the `--disabled` class
(`updateDisplay`, `src/index.js` line 188): `currentIndex === messages.length - 1`. -/
def rightArrowDisabled (s : SwipeNav) : Bool :=
  s.currentIndex == s.messages.length - 1

/-- Navigator states reachable from the initial state by arrow clicks. -/
inductive SwipeReachable (messages : List String) : SwipeNav → Prop
  | init : SwipeReachable messages (swipeInit messages)
  | left {s} : SwipeReachable messages s → SwipeReachable messages (swipeLeftClick s)
  | right {s} : SwipeReachable messages s → SwipeReachable messages (swipeRightClick s)

/-- The rendered payload of one section body. `markdown`/`swipe`/`accordion`
content is set through `innerHTML = renderMarkdown(...)`; `literal` content
is set through `textContent = ...` (never interpreted as markup). -/
inductive SectionBody where
  | markdown (text : String)
  | literal (text : String)
  | swipe (messages : List String)
  | accordion (messages : List String)
deriving DecidableEq, Repr

/-- One section appended to the box body by the tab loop of
`createCharacterBox` (`src/index.js` lines 536-557). -/
structure BuiltSection where
  tabId : String
  label : String
  body : SectionBody
  expanded : Bool
deriving DecidableEq, Repr

/-- `createFirstMessageSection` (`src/index.js` lines 303-318): `none` when
`getAllFirstMessages` is empty, otherwise accordion or swipe content
according to `useAccordionFirstMessage`. -/
def createFirstMessageSection (useAccordion : Bool) (data : CharRecord) :
    Option SectionBody :=
  if (getAllFirstMessages data).isEmpty then none
  else if useAccordion then some (SectionBody.accordion (getAllFirstMessages data))
  else some (SectionBody.swipe (getAllFirstMessages data))

/-- The `tabDefinitions` table of `createCharacterBox` (`src/index.js`
lines 496-527) for the non-custom tabs, together with the defensive field
reads of lines 451-457: label, content getter result, and `useMarkdown`. -/
def characterField (data : CharRecord) (tabId : String) :
    Option (String × String × Bool) :=
  if tabId = "description" then
    some ("Description", data.description.getD "No description available.", true)
  else if tabId = "scenario" then
    some ("Scenario", data.scenario.getD "", false)
  else if tabId = "personality" then
    some ("Personality", data.personality.getD "", false)
  else if tabId = "creatorNotes" then
    some ("Creator Notes", data.creator_notes.getD "", false)
  else if tabId = "exampleMessages" then
    some ("Example Messages", data.mes_example.getD "", false)
  else none

/-- One iteration of the tab loop of `createCharacterBox` (`src/index.js`
lines 536-557): the sections appended for the tab `tabId` with config `cfg`.
Unknown tabs are skipped; non-custom tabs are appended only when
`content && content.trim()` is truthy, via
`createCollapsibleSection(label, content.trim(), cfg.expanded, useMarkdown)`. -/
def renderTab (useAccordion : Bool) (data : CharRecord) (tabId : String)
    (cfg : TabCfg) : List BuiltSection :=
  if tabId = "firstMessage" then
    match createFirstMessageSection useAccordion data with
    | some body =>
      [{ tabId := "firstMessage", label := "First Message", body := body,
         expanded := cfg.expanded }]
    | none => []
  else
    match characterField data tabId with
    | none => []
    | some (label, content, useMarkdown) =>
      if content ≠ "" ∧ jsTrim content ≠ "" then
        [{ tabId := tabId, label := label,
           body := if useMarkdown then SectionBody.markdown (jsTrim content)
                   else SectionBody.literal (jsTrim content),
           expanded := cfg.expanded }]
      else []

/-- The comparison used by `.sort((a, b) => a[1].order - b[1].order)`
(`src/index.js` lines 530-532 and 767-768). -/
def tabLE (a b : String × TabCfg) : Prop :=
  a.2.order ≤ b.2.order

instance : DecidableRel tabLE :=
  fun a b => inferInstanceAs (Decidable (a.2.order ≤ b.2.order))

/-- Stable ascending sort by `order`, modelling JS `Array.prototype.sort`
(stable since ES2019) with the comparator above. -/
def sortTabs (cfg : List (String × TabCfg)) : List (String × TabCfg) :=
  List.insertionSort tabLE cfg

/-- The section-building part of `createCharacterBox` (`src/index.js`
lines 529-557): filter the visible tabs, sort them by `order`, and render
each in turn. -/
def createCharacterBoxSections (useAccordion : Bool)
    (tabConfig : List (String × TabCfg)) (data : CharRecord) :
    List BuiltSection :=
  let sortedTabs := sortTabs (tabConfig.filter (fun e => e.2.visible))
  sortedTabs.flatMap (fun e => renderTab useAccordion data e.1 e.2)

/-- HTML source produced for a text node assigned via `textContent`:
the browser serializes the markup characters as entities, so the text is
never interpreted as markup. -/
def htmlEscape (s : String) : String :=
  s.foldl
    (fun acc c =>
      if c = '&' then acc ++ "&amp;"
      else if c = '<' then acc ++ "&lt;"
      else if c = '>' then acc ++ "&gt;"
      else acc.push c) ""

/-- Whether the body's content is passed through the markdown renderer
(`innerHTML = renderMarkdown(...)`) rather than displayed as literal text. -/
def bodyUsesMarkdown : SectionBody → Bool
  | SectionBody.markdown _ => true
  | SectionBody.literal _ => false
  | SectionBody.swipe _ => true
  | SectionBody.accordion _ => true

/-- The HTML that ends up inside the section's content node, parametrized by
the external markdown renderer. `literal` goes through `textContent`, hence
`htmlEscape`, regardless of the renderer; `swipe` initially shows message 0. -/
def bodyInnerHtml (renderMd : String → String) : SectionBody → String
  | SectionBody.markdown t => renderMd t
  | SectionBody.literal t => htmlEscape t
  | SectionBody.swipe ms => renderMd (ms.headD "")
  | SectionBody.accordion ms => String.join (ms.map renderMd)

/-- The module-level mutable state of the modal controller
(`src/index.js` lines 9-11) together with the DOM state it manipulates:
boxes attached to `document.body` and document-level `keydown` listeners,
both as lists of identifiers, plus a fresh-identifier counter for the
new closure created on each `openBox`. -/
structure ModalState where
  currentBox : Option Nat
  escapeKeyHandler : Option Nat
  drawerWasOpen : Bool
  drawerOpen : Bool
  attachedBoxes : List Nat
  docKeydownHandlers : List Nat
  nextHandlerId : Nat
deriving DecidableEq, Repr

/-- The state at module load: all references `null`, nothing attached. -/
def initialModalState : ModalState :=
  { currentBox := none, escapeKeyHandler := none, drawerWasOpen := false,
    drawerOpen := false, attachedBoxes := [], docKeydownHandlers := [],
    nextHandlerId := 0 }

/-- `closeBox` (`src/index.js` lines 348-375): remove the current box if
any, remove the document-level Escape handler if any, then restore the
right-nav drawer state when it had been open before the box was opened. -/
def closeBox (s : ModalState) : ModalState :=
  let s1 :=
    match s.currentBox with
    | some b => { s with attachedBoxes := s.attachedBoxes.erase b, currentBox := none }
    | none => s
  let s2 :=
    match s1.escapeKeyHandler with
    | some h =>
      { s1 with docKeydownHandlers := s1.docKeydownHandlers.erase h,
                escapeKeyHandler := none }
    | none => s1
  if s2.drawerWasOpen then
    let s3 := if ¬ s2.drawerOpen then { s2 with drawerOpen := true } else s2
    { s3 with drawerWasOpen := false }
  else s2

/-- `openBox` (`src/index.js` lines 382-423): close any existing box,
remember the drawer state, attach the new box, and register a fresh
document-level Escape handler. Listeners attached to `boxElement` itself
vanish with the element, so only the document-level handler is tracked. -/
def openBox (boxElement : Nat) (s : ModalState) : ModalState :=
  let s1 := closeBox s
  let s2 := { s1 with drawerWasOpen := s1.drawerOpen }
  let h := s2.nextHandlerId
  { s2 with currentBox := some boxElement,
            attachedBoxes := s2.attachedBoxes ++ [boxElement],
            escapeKeyHandler := some h,
            docKeydownHandlers := s2.docKeydownHandlers ++ [h],
            nextHandlerId := h + 1 }

/-- The Closed controller state of the spec: no box held, no Escape handler
registered, no remembered drawer state. -/
def ModalControllerClosed (s : ModalState) : Prop :=
  s.currentBox = none ∧ s.escapeKeyHandler = none ∧ s.drawerWasOpen = false

/-- Well-formedness tying the module references to the DOM state: the
attached boxes are exactly the current box, and the registered document
`keydown` listeners are exactly the stored Escape handler. -/
def ModalWF (s : ModalState) : Prop :=
  (∀ b, s.currentBox = some b → s.attachedBoxes = [b]) ∧
  (s.currentBox = none → s.attachedBoxes = []) ∧
  (∀ h, s.escapeKeyHandler = some h → s.docKeydownHandlers = [h]) ∧
  (s.escapeKeyHandler = none → s.docKeydownHandlers = [])

/-- Events of the click-interception loop (`setupCharacterClickInterception`,
`src/index.js` lines 587-645): a qualifying click on a character card
starts a detail fetch; a fetch resolving runs the continuation after
`await`, which builds the box and opens it. `fetchResolved i` resolves the
`i`-th outstanding fetch, so any completion order can be expressed. -/
inductive ClickEvent where
  | click (characterId : Nat)
  | fetchResolved (pendingIndex : Nat)
deriving DecidableEq, Repr

/-- Interceptor state: the modal state plus the outstanding fetches
(character ids, in initiation order). The box built for character `cid`
is identified by `cid` itself. -/
structure InterceptorState where
  modal : ModalState
  pendingFetches : List Nat
deriving DecidableEq, Repr

/-- One event step. A qualifying click (lines 595-628) starts a fetch; the
continuation after a resolved fetch (lines 630-633) builds the character
box and calls `openBox` — with no staleness / generation check. -/
def interceptorStep (s : InterceptorState) : ClickEvent → InterceptorState
  | ClickEvent.click cid =>
    { s with pendingFetches := s.pendingFetches ++ [cid] }
  | ClickEvent.fetchResolved i =>
    match s.pendingFetches[i]? with
    | some cid =>
      { modal := openBox cid s.modal, pendingFetches := s.pendingFetches.eraseIdx i }
    | none => s

/-- Run a sequence of interceptor events. -/
def runClickTrace (s : InterceptorState) (events : List ClickEvent) :
    InterceptorState :=
  events.foldl interceptorStep s

/-- A JS value as stored in the settings object: numbers, booleans,
strings, the nested `tabConfig` object, or `null`. -/
inductive JVal where
  | num (n : Int)
  | bool (b : Bool)
  | str (s : String)
  | tabs (entries : List (String × TabCfg))
  | null
deriving DecidableEq, Repr

/-- A JS object as an association list in property insertion order
(JS objects have unique string keys). -/
abbrev JObj := List (String × JVal)

/-- JS truthiness of a value (`0`, `''`, `false`, `null` are falsy;
every object is truthy). -/
def jsTruthy : JVal → Bool
  | JVal.num n => n != 0
  | JVal.bool b => b
  | JVal.str s => s != ""
  | JVal.tabs _ => true
  | JVal.null => false

/-- Property read `o[k]`, `none` for an absent property. -/
def objGet : JObj → String → Option JVal
  | [], _ => none
  | e :: rest, k => if e.1 = k then some e.2 else objGet rest k

/-- Property write `o[k] = v`: replace in place when the key exists
(insertion order preserved), append otherwise. -/
def objSet : JObj → String → JVal → JObj
  | [], k, v => [(k, v)]
  | e :: rest, k, v =>
    if e.1 = k then (k, v) :: rest else e :: objSet rest k v

/-- `Object.assign(target, source)`: copy the source's properties into the
target in order. -/
def objAssign (target source : JObj) : JObj :=
  source.foldl (fun acc e => objSet acc e.1 e.2) target

/-- The hard-coded `extensionSettings` defaults of `src/index.js`
lines 27-48 (with `tabConfig` a deep copy of `defaultTabConfig`). -/
def defaultSettings : JObj :=
  [("boxWidth", JVal.num 80),
   ("boxHeight", JVal.num 80),
   ("boxPadding", JVal.num 2),
   ("boxBorderRadius", JVal.num 12),
   ("overlayOpacity", JVal.num 70),
   ("primaryButtonColor", JVal.str "#4a9eff"),
   ("secondaryButtonColor", JVal.str "#999999"),
   ("contentWidth", JVal.num 50),
   ("imageMaxHeight", JVal.num 400),
   ("responsiveBreakpoint", JVal.num 700),
   ("useThemePrimaryColor", JVal.bool true),
   ("useThemeSecondaryColor", JVal.bool true),
   ("fontColor", JVal.str "#ffffff"),
   ("backgroundColor", JVal.str "#1a1a1a"),
   ("backgroundOpacity", JVal.num 95),
   ("blurStrength", JVal.num 10),
   ("useThemeFontColor", JVal.bool true),
   ("useThemeBackgroundColor", JVal.bool true),
   ("useAccordionFirstMessage", JVal.bool false),
   ("tabConfig", JVal.tabs defaultTabConfig)]

/-- Property read on a tab-config object, `none` for an absent tab id. -/
def tabLookup : List (String × TabCfg) → String → Option TabCfg
  | [], _ => none
  | e :: rest, k => if e.1 = k then some e.2 else tabLookup rest k

/-- The `for (const [tabId, defaults] of Object.entries(defaultTabConfig))`
loop of `loadSettings` (`src/index.js` lines 660-665): append a copy of the
default entry for every tab id missing from the loaded config. -/
def backfillTabConfig (entries : List (String × TabCfg)) :
    List (String × TabCfg) :=
  defaultTabConfig.foldl
    (fun acc e => if (tabLookup acc e.1).isSome then acc else acc ++ [(e.1, e.2)])
    entries

/-- `loadSettings` (`src/index.js` lines 650-670): when persisted settings
exist, `Object.assign` them over the defaults, then ensure `tabConfig`
exists (a falsy value is replaced by a fresh copy of the defaults) and
backfill any missing tab entries. A truthy persisted `tabConfig` that is a
primitive would make the strict-mode property assignment throw: `none`. -/
def loadSettings (persisted : Option JObj) : Option JObj :=
  match persisted with
  | none => some defaultSettings
  | some p =>
    let s := objAssign defaultSettings p
    match objGet s "tabConfig" with
    | some tc =>
      if jsTruthy tc then
        match tc with
        | JVal.tabs entries =>
          some (objSet s "tabConfig" (JVal.tabs (backfillTabConfig entries)))
        | _ => none
      else some (objSet s "tabConfig" (JVal.tabs defaultTabConfig))
    | none => some (objSet s "tabConfig" (JVal.tabs defaultTabConfig))

/-- Mutation `tabConfig[key].order = o` on an association list: the matching
entry's `order` field is replaced, everything else untouched. -/
def setTabOrder (cfg : List (String × TabCfg)) (key : String) (o : Int) :
    List (String × TabCfg) :=
  cfg.map (fun e => if e.1 = key then (e.1, { e.2 with order := o }) else e)

/-- `swapTabOrder` (`src/index.js` lines 766-787): sort the entries by
`order`, locate `tabId` (`findIndex`, `-1` when absent), return unchanged
when the target index is out of range, otherwise swap the `order` values of
the located entry and its neighbour. When `findIndex` returned `-1` and the
bounds check still passes, the original code dereferences
`sorted[-1][0]` and throws: modelled as `none`. -/
def swapTabOrder (cfg : List (String × TabCfg)) (tabId : String)
    (direction : Int) : Option (List (String × TabCfg)) :=
  let sorted := sortTabs cfg
  let currentIndex : Int :=
    ((sorted.findIdx? (fun e => e.1 == tabId)).map
      (fun i : Nat => (i : Int))).getD (-1)
  let targetIndex : Int := currentIndex + direction
  if targetIndex < 0 ∨ (sorted.length : Int) ≤ targetIndex then
    some cfg
  else if currentIndex < 0 then
    none
  else
    match sorted[currentIndex.toNat]?, sorted[targetIndex.toNat]? with
    | some cur, some tgt =>
      some (setTabOrder (setTabOrder cfg cur.1 tgt.2.order) tgt.1 cur.2.order)
    | _, _ => none

/-- `swapTabOrder` seen at the level of the whole settings object: only the
`order` fields inside `tabConfig` are written; every other settings
property is untouched. -/
def swapTabOrderSettings (s : JObj) (tabId : String) (direction : Int) :
    Option JObj :=
  match objGet s "tabConfig" with
  | some (JVal.tabs cfg) =>
    (swapTabOrder cfg tabId direction).map
      (fun cfg2 => objSet s "tabConfig" (JVal.tabs cfg2))
  | _ => none

/-- The combined effect on an entry of the two `order` writes of
`swapTabOrder`, for two distinct keys `u.1` and `v.1`: `u.1`'s entry
receives `v`'s order, `v.1`'s entry receives `u`'s order. -/
def swapOrderFn (u v : String × TabCfg) (e : String × TabCfg) :
    String × TabCfg :=
  if e.1 = u.1 then (e.1, { e.2 with order := v.2.order })
  else if e.1 = v.1 then (e.1, { e.2 with order := u.2.order })
  else e

/-- Strict version of the tab comparison, used to state uniqueness of the
sorted order when all `order` values are distinct. -/
def tabLT (a b : String × TabCfg) : Prop :=
  a.2.order < b.2.order

instance : DecidableRel tabLT :=
  fun a b => inferInstanceAs (Decidable (a.2.order < b.2.order))

instance : IsTotal (String × TabCfg) tabLE :=
  ⟨fun a b => Int.le_total a.2.order b.2.order⟩

instance : IsTrans (String × TabCfg) tabLE :=
  ⟨fun _ _ _ hab hbc => le_trans hab hbc⟩

instance : IsAntisymm (String × TabCfg) tabLT :=
  ⟨fun _ _ hab hba => absurd hab (not_lt.mpr (le_of_lt hba))⟩

/-- The raw optional Record field backing each non-`firstMessage` section
kind — the claim's notion of "the corresponding Record field". -/
def rawField (data : CharRecord) (tabId : String) : Option String :=
  if tabId = "description" then data.description
  else if tabId = "scenario" then data.scenario
  else if tabId = "personality" then data.personality
  else if tabId = "creatorNotes" then data.creator_notes
  else if tabId = "exampleMessages" then data.mes_example
  else none

/-- The GreetingSet as the spec words it: the trimmed primary greeting when
non-empty, followed by the trimmed non-empty alternates in original order. -/
def specGreetingSet (data : CharRecord) : List String :=
  (match data.first_mes with
   | some s => if jsTrim s ≠ "" then [jsTrim s] else []
   | none => []) ++
  ((data.alternate_greetings.getD []).map jsTrim).filter (fun t => t != "")

/-- The Record of the spec's worked scenario:
`{name: "Aria", description: "A wanderer.", first_mes: "Hello!",
alternate_greetings: ["Hi there!", ""]}`. -/
def ariaRecord : CharRecord :=
  { name := some "Aria", description := some "A wanderer.",
    first_mes := some "Hello!", alternate_greetings := some ["Hi there!", ""] }

/-- An initially-Closed modal controller state is well formed. -/
theorem modalWF_initial : ModalWF initialModalState := by
  refine ⟨?_, ?_, ?_, ?_⟩ <;> intros <;> simp_all [initialModalState]

/-- Effect of `closeBox` on a well-formed state: everything detached,
references cleared, the fresh-handler counter untouched. -/
theorem closeBox_fields (s : ModalState) (h : ModalWF s) :
    (closeBox s).currentBox = none ∧ (closeBox s).attachedBoxes = [] ∧
    (closeBox s).escapeKeyHandler = none ∧ (closeBox s).docKeydownHandlers = [] ∧
    (closeBox s).nextHandlerId = s.nextHandlerId := by
  obtain ⟨cb, ek, dwo, dro, ab, dkh, nid⟩ := s
  obtain ⟨hb, hbn, hh, hhn⟩ := h
  cases cb with
  | none =>
    have hab : ab = [] := hbn rfl
    cases ek with
    | none =>
      have hdk : dkh = [] := hhn rfl
      subst hab hdk
      cases dwo <;> cases dro <;> simp [closeBox]
    | some k =>
      have hdk : dkh = [k] := hh k rfl
      subst hab hdk
      cases dwo <;> cases dro <;> simp [closeBox]
  | some b =>
    have hab : ab = [b] := hb b rfl
    cases ek with
    | none =>
      have hdk : dkh = [] := hhn rfl
      subst hab hdk
      cases dwo <;> cases dro <;> simp [closeBox]
    | some k =>
      have hdk : dkh = [k] := hh k rfl
      subst hab hdk
      cases dwo <;> cases dro <;> simp [closeBox]

/-- Effect of `openBox` on a well-formed state: exactly the new box is
attached and exactly one fresh document-level Escape handler registered. -/
theorem openBox_fields (s : ModalState) (b : Nat) (h : ModalWF s) :
    (openBox b s).currentBox = some b ∧ (openBox b s).attachedBoxes = [b] ∧
    (openBox b s).escapeKeyHandler = some s.nextHandlerId ∧
    (openBox b s).docKeydownHandlers = [s.nextHandlerId] ∧
    (openBox b s).nextHandlerId = s.nextHandlerId + 1 := by
  obtain ⟨h1, h2, h3, h4, h5⟩ := closeBox_fields s h
  unfold openBox
  refine ⟨rfl, ?_, ?_, ?_, ?_⟩ <;> simp [h2, h3, h4, h5]

/-- `openBox` preserves well-formedness. -/
theorem modalWF_openBox (s : ModalState) (b : Nat) (h : ModalWF s) :
    ModalWF (openBox b s) := by
  obtain ⟨f1, f2, f3, f4, f5⟩ := openBox_fields s b h
  refine ⟨?_, ?_, ?_, ?_⟩ <;> intros <;> simp_all

/-- C9: calling `closeBox` on an already-Closed controller (no box held,
no Escape handler registered, no remembered drawer state) is a no-op that
leaves the state unchanged; being a total function, it does not throw. -/
theorem claim9_close_idempotent (s : ModalState)
    (h : ModalControllerClosed s) : closeBox s = s := by
  obtain ⟨h1, h2, h3⟩ := h
  simp [closeBox, h1, h2, h3]

/-- Witness for C9 at the initial (Closed) state. -/
theorem claim9_witness :
    ModalControllerClosed initialModalState ∧
    closeBox initialModalState = initialModalState :=
  ⟨⟨rfl, rfl, rfl⟩, claim9_close_idempotent initialModalState ⟨rfl, rfl, rfl⟩⟩

/-- C2: two `openBox` calls with no intervening `closeBox`, from any
well-formed state, leave exactly one live box (the second one) attached and
exactly one document-level Escape handler registered: `openBox` first runs
the full close sequence, so no instances or listeners accumulate. -/
theorem claim2_single_instance (s : ModalState) (b1 b2 : Nat)
    (h : ModalWF s) :
    (openBox b2 (openBox b1 s)).currentBox = some b2 ∧
    (openBox b2 (openBox b1 s)).attachedBoxes = [b2] ∧
    (openBox b2 (openBox b1 s)).docKeydownHandlers.length = 1 ∧
    (∃ k, (openBox b2 (openBox b1 s)).escapeKeyHandler = some k ∧
          (openBox b2 (openBox b1 s)).docKeydownHandlers = [k]) := by
  obtain ⟨f1, f2, f3, f4, f5⟩ :=
    openBox_fields (openBox b1 s) b2 (modalWF_openBox s b1 h)
  exact ⟨f1, f2, by simp [f4], ⟨(openBox b1 s).nextHandlerId, f3, f4⟩⟩

/-- Witness for C2: opening box 1 then box 2 from the initial state. -/
theorem claim2_witness :
    (openBox 2 (openBox 1 initialModalState)).currentBox = some 2 ∧
    (openBox 2 (openBox 1 initialModalState)).attachedBoxes = [2] ∧
    (openBox 2 (openBox 1 initialModalState)).docKeydownHandlers.length = 1 ∧
    (∃ k, (openBox 2 (openBox 1 initialModalState)).escapeKeyHandler = some k ∧
          (openBox 2 (openBox 1 initialModalState)).docKeydownHandlers = [k]) :=
  claim2_single_instance initialModalState 1 2 modalWF_initial

/-- C1 (amended): the click interceptor performs no staleness check, so
whenever an outstanding fetch for character `cid` resolves, the modal is
(re)opened for `cid` — the most recently *completed* fetch wins, not the
most recently initiated one. -/
theorem claim1_last_completed_fetch_wins (s : InterceptorState) (i cid : Nat)
    (h : s.pendingFetches[i]? = some cid) :
    (interceptorStep s (ClickEvent.fetchResolved i)).modal.currentBox = some cid ∧
    (interceptorStep s (ClickEvent.fetchResolved i)).pendingFetches
      = s.pendingFetches.eraseIdx i := by
  simp [interceptorStep, h, openBox]

/-- Counterexample to C1 as stated: click character 1, then character 2,
then let character 2's fetch resolve first and character 1's fetch resolve
last. Both fetches have resolved, yet the displayed modal is character 1's
box, not the box of the most recently clicked entry 2: the stale first
result clobbers the newer modal. -/
theorem claim1_counterexample :
    (runClickTrace { modal := initialModalState, pendingFetches := [] }
        [ClickEvent.click 1, ClickEvent.click 2,
         ClickEvent.fetchResolved 1, ClickEvent.fetchResolved 0]).modal.currentBox
      = some 1 ∧ (1 : Nat) ≠ 2 := by
  decide

/-- Witness for the amended C1 at a concrete pending fetch. -/
theorem claim1_witness :
    ((⟨initialModalState, [7]⟩ : InterceptorState).pendingFetches[0]? = some 7) ∧
    (interceptorStep ⟨initialModalState, [7]⟩
        (ClickEvent.fetchResolved 0)).modal.currentBox = some 7 ∧
    (interceptorStep ⟨initialModalState, [7]⟩
        (ClickEvent.fetchResolved 0)).pendingFetches
      = (⟨initialModalState, [7]⟩ : InterceptorState).pendingFetches.eraseIdx 0 :=
  ⟨rfl, claim1_last_completed_fetch_wins ⟨initialModalState, [7]⟩ 0 7 rfl⟩

/-- Any reachable swipe-navigator state keeps the original message list and
an index strictly below the number of messages. -/
theorem swipeReachable_facts {messages : List String} (hne : messages ≠ [])
    {s : SwipeNav} (hr : SwipeReachable messages s) :
    s.messages = messages ∧ s.currentIndex < messages.length := by
  induction hr with
  | init =>
    exact ⟨rfl, List.length_pos.mpr hne⟩
  | @left s _ ih =>
    obtain ⟨hm, hlt⟩ := ih
    by_cases hc : 0 < s.currentIndex
    · rw [swipeLeftClick, if_pos hc]
      refine ⟨hm, ?_⟩
      show s.currentIndex - 1 < messages.length
      omega
    · rw [swipeLeftClick, if_neg hc]
      exact ⟨hm, hlt⟩
  | @right s _ ih =>
    obtain ⟨hm, hlt⟩ := ih
    by_cases hc : s.currentIndex < s.messages.length - 1
    · rw [swipeRightClick, if_pos hc]
      refine ⟨hm, ?_⟩
      show s.currentIndex + 1 < messages.length
      rw [hm] at hc
      omega
    · rw [swipeRightClick, if_neg hc]
      exact ⟨hm, hlt⟩

/-- C5: for a greeting set of size at least 2 in swipe mode, at every
reachable navigator state the header reads `First Message (i+1/n)`, the
left arrow is disabled exactly at index 0 where the previous-control is a
no-op, the right arrow is disabled exactly at index n-1 where the
next-control is a no-op, and the index stays below n. -/
theorem claim5_swipe_navigator (messages : List String)
    (h2 : 2 ≤ messages.length) (s : SwipeNav)
    (hr : SwipeReachable messages s) :
    s.currentIndex < messages.length ∧
    swipeHeaderText s =
      "First Message (" ++ toString (s.currentIndex + 1) ++ "/" ++
        toString messages.length ++ ")" ∧
    (leftArrowDisabled s = true ↔ s.currentIndex = 0) ∧
    (swipeLeftClick s = s ↔ s.currentIndex = 0) ∧
    (rightArrowDisabled s = true ↔ s.currentIndex = messages.length - 1) ∧
    (swipeRightClick s = s ↔ s.currentIndex = messages.length - 1) := by
  obtain ⟨hm, hlt⟩ := swipeReachable_facts (by rintro rfl; simp at h2) hr
  refine ⟨hlt, ?_, ?_, ?_, ?_, ?_⟩
  · simp only [swipeHeaderText, hm]
    rw [if_pos (by omega)]
  · simp [leftArrowDisabled]
  · constructor
    · intro he
      by_contra hne
      rw [swipeLeftClick, if_pos (Nat.pos_of_ne_zero hne)] at he
      have := congrArg SwipeNav.currentIndex he
      simp only at this
      omega
    · intro h0
      simp [swipeLeftClick, h0]
  · simp [rightArrowDisabled, hm]
  · rw [swipeRightClick, hm]
    constructor
    · intro he
      by_contra hne
      rw [if_pos (by omega)] at he
      have := congrArg SwipeNav.currentIndex he
      simp only at this
      omega
    · intro h0
      rw [if_neg (by omega)]

/-- Witness for C5 at the two-message set and the initial state. -/
theorem claim5_witness :
    (swipeInit ["a", "b"]).currentIndex < (["a", "b"] : List String).length ∧
    swipeHeaderText (swipeInit ["a", "b"]) =
      "First Message (" ++ toString ((swipeInit ["a", "b"]).currentIndex + 1) ++ "/" ++
        toString (["a", "b"] : List String).length ++ ")" ∧
    (leftArrowDisabled (swipeInit ["a", "b"]) = true ↔
      (swipeInit ["a", "b"]).currentIndex = 0) ∧
    (swipeLeftClick (swipeInit ["a", "b"]) = swipeInit ["a", "b"] ↔
      (swipeInit ["a", "b"]).currentIndex = 0) ∧
    (rightArrowDisabled (swipeInit ["a", "b"]) = true ↔
      (swipeInit ["a", "b"]).currentIndex = (["a", "b"] : List String).length - 1) ∧
    (swipeRightClick (swipeInit ["a", "b"]) = swipeInit ["a", "b"] ↔
      (swipeInit ["a", "b"]).currentIndex = (["a", "b"] : List String).length - 1) :=
  claim5_swipe_navigator ["a", "b"] (by decide) _ SwipeReachable.init

/-- A trimmed-nonempty string is nonempty. -/
theorem ne_empty_of_jsTrim_ne {t : String} (h : jsTrim t ≠ "") : t ≠ "" :=
  fun ht => h (by rw [ht]; rfl)

/-- Membership in the built section list, reduced to membership of a
visible config entry whose `renderTab` emits the section. -/
theorem mem_createCharacterBoxSections {useAccordion : Bool}
    {tabConfig : List (String × TabCfg)} {data : CharRecord}
    {s : BuiltSection} :
    s ∈ createCharacterBoxSections useAccordion tabConfig data ↔
      ∃ e ∈ tabConfig, e.2.visible = true ∧
        s ∈ renderTab useAccordion data e.1 e.2 := by
  unfold createCharacterBoxSections sortTabs
  simp only [List.mem_flatMap]
  constructor
  · rintro ⟨e, he, hs⟩
    have he2 := (List.perm_insertionSort tabLE _).mem_iff.mp he
    rw [List.mem_filter] at he2
    exact ⟨e, he2.1, he2.2, hs⟩
  · rintro ⟨e, he, hvis, hs⟩
    exact ⟨e, (List.perm_insertionSort tabLE _).mem_iff.mpr
      (List.mem_filter.mpr ⟨he, hvis⟩), hs⟩

/-- The first-message builder returns `none` exactly on an empty greeting set. -/
theorem createFirstMessageSection_eq_none {u : Bool} {data : CharRecord} :
    createFirstMessageSection u data = none ↔ getAllFirstMessages data = [] := by
  unfold createFirstMessageSection
  cases hE : (getAllFirstMessages data).isEmpty with
  | true => simp [hE, List.isEmpty_iff.mp hE]
  | false =>
    have hne : getAllFirstMessages data ≠ [] := by
      intro hnil; rw [hnil] at hE; simp at hE
    cases u <;> simp [hE, hne]

/-- Shape of a successful first-message build: swipe or accordion content
over the (non-empty) greeting set. -/
theorem createFirstMessageSection_some {u : Bool} {data : CharRecord}
    {body : SectionBody} (h : createFirstMessageSection u data = some body) :
    getAllFirstMessages data ≠ [] ∧
    (body = SectionBody.swipe (getAllFirstMessages data) ∨
     body = SectionBody.accordion (getAllFirstMessages data)) := by
  unfold createFirstMessageSection at h
  cases hE : (getAllFirstMessages data).isEmpty with
  | true => rw [hE] at h; simp at h
  | false =>
    rw [hE] at h
    have hne : getAllFirstMessages data ≠ [] := by
      intro hnil; rw [hnil] at hE; simp at hE
    cases u <;> simp_all

/-- What a section emitted by one tab iteration can look like. -/
theorem renderTab_shape {u : Bool} {data : CharRecord} {k : String}
    {cfg : TabCfg} {s : BuiltSection} (h : s ∈ renderTab u data k cfg) :
    s.tabId = k ∧ s.expanded = cfg.expanded ∧
    ((k = "firstMessage" ∧ s.label = "First Message" ∧
        getAllFirstMessages data ≠ [] ∧
        (s.body = SectionBody.swipe (getAllFirstMessages data) ∨
         s.body = SectionBody.accordion (getAllFirstMessages data))) ∨
     (k ≠ "firstMessage" ∧
      ∃ label content um, characterField data k = some (label, content, um) ∧
        content ≠ "" ∧ jsTrim content ≠ "" ∧ s.label = label ∧
        s.body = (if um then SectionBody.markdown (jsTrim content)
                  else SectionBody.literal (jsTrim content)))) := by
  unfold renderTab at h
  by_cases hk : k = "firstMessage"
  · rw [if_pos hk] at h
    cases hcf : createFirstMessageSection u data with
    | none => rw [hcf] at h; simp at h
    | some body =>
      rw [hcf] at h
      simp only [List.mem_singleton] at h
      subst h
      obtain ⟨hne, hbody⟩ := createFirstMessageSection_some hcf
      exact ⟨hk.symm, rfl, Or.inl ⟨hk, rfl, hne, hbody⟩⟩
  · rw [if_neg hk] at h
    cases hcf : characterField data k with
    | none => rw [hcf] at h; simp at h
    | some lcu =>
      obtain ⟨label, content, um⟩ := lcu
      rw [hcf] at h
      by_cases hc : content ≠ "" ∧ jsTrim content ≠ ""
      · simp only [if_pos hc, List.mem_singleton] at h
        subst h
        exact ⟨rfl, rfl, Or.inr ⟨hk, label, content, um, rfl, hc.1, hc.2, rfl, rfl⟩⟩
      · simp only [if_neg hc] at h
        simp at h

/-- Case analysis on a successful `characterField` lookup. -/
theorem characterField_some {data : CharRecord} {k label content : String}
    {um : Bool} (h : characterField data k = some (label, content, um)) :
    (k = "description" ∧ um = true ∧
       content = data.description.getD "No description available.") ∨
    (k = "scenario" ∧ um = false ∧ content = data.scenario.getD "") ∨
    (k = "personality" ∧ um = false ∧ content = data.personality.getD "") ∨
    (k = "creatorNotes" ∧ um = false ∧ content = data.creator_notes.getD "") ∨
    (k = "exampleMessages" ∧ um = false ∧ content = data.mes_example.getD "") := by
  unfold characterField at h
  split_ifs at h with h1 h2 h3 h4 h5
  · simp only [Option.some.injEq, Prod.mk.injEq] at h
    exact Or.inl ⟨h1, h.2.2.symm, h.2.1.symm⟩
  · simp only [Option.some.injEq, Prod.mk.injEq] at h
    exact Or.inr (Or.inl ⟨h2, h.2.2.symm, h.2.1.symm⟩)
  · simp only [Option.some.injEq, Prod.mk.injEq] at h
    exact Or.inr (Or.inr (Or.inl ⟨h3, h.2.2.symm, h.2.1.symm⟩))
  · simp only [Option.some.injEq, Prod.mk.injEq] at h
    exact Or.inr (Or.inr (Or.inr (Or.inl ⟨h4, h.2.2.symm, h.2.1.symm⟩)))
  · simp only [Option.some.injEq, Prod.mk.injEq] at h
    exact Or.inr (Or.inr (Or.inr (Or.inr ⟨h5, h.2.2.symm, h.2.1.symm⟩)))

/-- Any emitted section for a non-firstMessage kind pins the content of its
`characterField` entry: forward direction shared by C3's cases. -/
theorem emitted_section_content {useAccordion : Bool} {data : CharRecord}
    {tabConfig : List (String × TabCfg)} {k : String}
    (hex : ∃ s ∈ createCharacterBoxSections useAccordion tabConfig data, s.tabId = k)
    (hk : k ≠ "firstMessage") :
    ∃ label content um, characterField data k = some (label, content, um) ∧
      content ≠ "" ∧ jsTrim content ≠ "" := by
  obtain ⟨s, hs, hsk⟩ := hex
  obtain ⟨e, _, _, hsr⟩ := mem_createCharacterBoxSections.mp hs
  obtain ⟨htab, _, hshape⟩ := renderTab_shape hsr
  have hek : e.1 = k := by rw [← htab, hsk]
  cases hshape with
  | inl h1 => exact absurd (hek ▸ h1.1) hk
  | inr h2 =>
    obtain ⟨_, label, content, um, hcf, hc1, hc2, _, _⟩ := h2
    rw [hek] at hcf
    exact ⟨label, content, um, hcf, hc1, hc2⟩

/-- Conversely, a visible config entry for kind `k` with truthy trimmed
content yields an emitted section: backward direction shared by C3's cases. -/
theorem section_emitted_of_content {useAccordion : Bool} {data : CharRecord}
    {tabConfig : List (String × TabCfg)} {k : String} {cfg : TabCfg}
    (hmem : (k, cfg) ∈ tabConfig) (hvis : cfg.visible = true)
    (label content : String) (um : Bool)
    (hcf : characterField data k = some (label, content, um))
    (hc1 : content ≠ "") (hc2 : jsTrim content ≠ "") :
    ∃ s ∈ createCharacterBoxSections useAccordion tabConfig data,
      s.tabId = k := by
  have hk : k ≠ "firstMessage" := by
    intro hkeq
    have hnone : characterField data "firstMessage" = none := rfl
    rw [hkeq, hnone] at hcf
    exact Option.noConfusion hcf
  refine ⟨{ tabId := k, label := label,
            body := if um then SectionBody.markdown (jsTrim content)
                    else SectionBody.literal (jsTrim content),
            expanded := cfg.expanded },
          mem_createCharacterBoxSections.mpr ⟨(k, cfg), hmem, hvis, ?_⟩, rfl⟩
  unfold renderTab
  rw [if_neg hk, hcf]
  simp only [if_pos (And.intro hc1 hc2), List.mem_singleton]

/-- C3 (amended): for the visible kinds scenario, personality, creatorNotes
and exampleMessages, a section is emitted iff the corresponding Record
field is present and non-empty after trimming. For the description kind the
original claim fails: an absent description is substituted by the
placeholder `'No description available.'`, so a Description section is
emitted iff the description field is either absent or non-empty after
trimming (a present empty/whitespace-only description still yields none). -/
theorem claim3_section_omission (useAccordion : Bool) (data : CharRecord)
    (tabConfig : List (String × TabCfg)) (k : String) (cfg : TabCfg)
    (hmem : (k, cfg) ∈ tabConfig) (hvis : cfg.visible = true) :
    ((k = "scenario" ∨ k = "personality" ∨ k = "creatorNotes" ∨
        k = "exampleMessages") →
      ((∃ s ∈ createCharacterBoxSections useAccordion tabConfig data,
          s.tabId = k) ↔
        ∃ t, rawField data k = some t ∧ jsTrim t ≠ "")) ∧
    (k = "description" →
      ((∃ s ∈ createCharacterBoxSections useAccordion tabConfig data,
          s.tabId = k) ↔
        ∀ t, data.description = some t → jsTrim t ≠ "")) := by
  constructor
  · intro hk
    constructor
    · intro hex
      have hkfm : k ≠ "firstMessage" := by
        rcases hk with rfl | rfl | rfl | rfl <;> decide
      obtain ⟨label, content, um, hcf, hc1, hc2⟩ :=
        emitted_section_content hex hkfm
      rcases hk with rfl | rfl | rfl | rfl
      · have hcf' : characterField data "scenario" =
            some ("Scenario", data.scenario.getD "", false) := rfl
        rw [hcf'] at hcf
        simp only [Option.some.injEq, Prod.mk.injEq] at hcf
        obtain ⟨-, hcont, -⟩ := hcf
        cases hsc : data.scenario with
        | none => rw [hsc] at hcont; simp at hcont; exact absurd hcont.symm hc1
        | some t =>
          rw [hsc] at hcont
          simp only [Option.getD_some] at hcont
          exact ⟨t, hsc, by rw [hcont]; exact hc2⟩
      · have hcf' : characterField data "personality" =
            some ("Personality", data.personality.getD "", false) := rfl
        rw [hcf'] at hcf
        simp only [Option.some.injEq, Prod.mk.injEq] at hcf
        obtain ⟨-, hcont, -⟩ := hcf
        cases hsc : data.personality with
        | none => rw [hsc] at hcont; simp at hcont; exact absurd hcont.symm hc1
        | some t =>
          rw [hsc] at hcont
          simp only [Option.getD_some] at hcont
          exact ⟨t, hsc, by rw [hcont]; exact hc2⟩
      · have hcf' : characterField data "creatorNotes" =
            some ("Creator Notes", data.creator_notes.getD "", false) := rfl
        rw [hcf'] at hcf
        simp only [Option.some.injEq, Prod.mk.injEq] at hcf
        obtain ⟨-, hcont, -⟩ := hcf
        cases hsc : data.creator_notes with
        | none => rw [hsc] at hcont; simp at hcont; exact absurd hcont.symm hc1
        | some t =>
          rw [hsc] at hcont
          simp only [Option.getD_some] at hcont
          exact ⟨t, hsc, by rw [hcont]; exact hc2⟩
      · have hcf' : characterField data "exampleMessages" =
            some ("Example Messages", data.mes_example.getD "", false) := rfl
        rw [hcf'] at hcf
        simp only [Option.some.injEq, Prod.mk.injEq] at hcf
        obtain ⟨-, hcont, -⟩ := hcf
        cases hsc : data.mes_example with
        | none => rw [hsc] at hcont; simp at hcont; exact absurd hcont.symm hc1
        | some t =>
          rw [hsc] at hcont
          simp only [Option.getD_some] at hcont
          exact ⟨t, hsc, by rw [hcont]; exact hc2⟩
    · rintro ⟨t, hraw, ht⟩
      rcases hk with rfl | rfl | rfl | rfl
      · have hs : data.scenario = some t := hraw
        have hcf : characterField data "scenario" =
            some ("Scenario", data.scenario.getD "", false) := rfl
        rw [hs] at hcf
        simp only [Option.getD_some] at hcf
        exact section_emitted_of_content hmem hvis _ t false hcf
          (ne_empty_of_jsTrim_ne ht) ht
      · have hs : data.personality = some t := hraw
        have hcf : characterField data "personality" =
            some ("Personality", data.personality.getD "", false) := rfl
        rw [hs] at hcf
        simp only [Option.getD_some] at hcf
        exact section_emitted_of_content hmem hvis _ t false hcf
          (ne_empty_of_jsTrim_ne ht) ht
      · have hs : data.creator_notes = some t := hraw
        have hcf : characterField data "creatorNotes" =
            some ("Creator Notes", data.creator_notes.getD "", false) := rfl
        rw [hs] at hcf
        simp only [Option.getD_some] at hcf
        exact section_emitted_of_content hmem hvis _ t false hcf
          (ne_empty_of_jsTrim_ne ht) ht
      · have hs : data.mes_example = some t := hraw
        have hcf : characterField data "exampleMessages" =
            some ("Example Messages", data.mes_example.getD "", false) := rfl
        rw [hs] at hcf
        simp only [Option.getD_some] at hcf
        exact section_emitted_of_content hmem hvis _ t false hcf
          (ne_empty_of_jsTrim_ne ht) ht
  · rintro rfl
    constructor
    · intro hex t htd
      obtain ⟨label, content, um, hcf, hc1, hc2⟩ :=
        emitted_section_content hex (by decide)
      have hcf' : characterField data "description" =
          some ("Description", data.description.getD "No description available.",
            true) := rfl
      rw [hcf'] at hcf
      simp only [Option.some.injEq, Prod.mk.injEq] at hcf
      obtain ⟨-, hcont, -⟩ := hcf
      rw [htd] at hcont
      simp only [Option.getD_some] at hcont
      rw [hcont]
      exact hc2
    · intro hall
      cases hd : data.description with
      | none =>
        have hcf : characterField data "description" =
            some ("Description", data.description.getD "No description available.",
              true) := rfl
        rw [hd] at hcf
        simp only [Option.getD_none] at hcf
        exact section_emitted_of_content hmem hvis _ _ true hcf
          (by decide) (by decide)
      | some t =>
        have ht := hall t hd
        have hcf : characterField data "description" =
            some ("Description", data.description.getD "No description available.",
              true) := rfl
        rw [hd] at hcf
        simp only [Option.getD_some] at hcf
        exact section_emitted_of_content hmem hvis _ t true hcf
          (ne_empty_of_jsTrim_ne ht) ht

/-- Counterexample to C3 as stated: with the default configuration and a
record whose description field is absent, a (non-empty) Description section
is still emitted, carrying the placeholder text — contradicting "a field
that is absent ... yields no section at all". -/
theorem claim3_counterexample :
    ({} : CharRecord).description = none ∧
    createCharacterBoxSections false defaultTabConfig {} =
      [{ tabId := "description", label := "Description",
         body := SectionBody.markdown "No description available.",
         expanded := true }] :=
  ⟨rfl, by decide⟩

/-- Witness for the amended C3 at the scenario kind of the default
configuration, on a record with a non-empty scenario. -/
theorem claim3_witness :
    (("scenario", ({ order := 2, visible := true, expanded := false } : TabCfg))
        ∈ defaultTabConfig) ∧
    (((("scenario" : String) = "scenario" ∨ ("scenario" : String) = "personality" ∨
        ("scenario" : String) = "creatorNotes" ∨
        ("scenario" : String) = "exampleMessages") →
      ((∃ s ∈ createCharacterBoxSections false defaultTabConfig
            { scenario := some "In a tavern." }, s.tabId = "scenario") ↔
        ∃ t, rawField { scenario := some "In a tavern." } "scenario" = some t ∧
          jsTrim t ≠ "")) ∧
    (("scenario" : String) = "description" →
      ((∃ s ∈ createCharacterBoxSections false defaultTabConfig
            { scenario := some "In a tavern." }, s.tabId = "scenario") ↔
        ∀ t, ({ scenario := some "In a tavern." } : CharRecord).description = some t →
          jsTrim t ≠ ""))) :=
  ⟨by decide,
   claim3_section_omission false { scenario := some "In a tavern." }
     defaultTabConfig "scenario" { order := 2, visible := true, expanded := false }
     (by decide) rfl⟩

/-- The alternates loop equals "trim each, drop the empties". -/
theorem collectAlternates_eq (l : List String) :
    collectAlternates l = (l.map jsTrim).filter (fun t => t != "") := by
  induction l with
  | nil => rfl
  | cons alt rest ih =>
    by_cases h : jsTrim alt = ""
    · have halt : ¬(alt ≠ "" ∧ jsTrim alt ≠ "") := by simp [h]
      simp [collectAlternates, if_neg halt, h, ih]
    · have halt : alt ≠ "" ∧ jsTrim alt ≠ "" :=
        ⟨fun he => h (by rw [he]; rfl), h⟩
      simp [collectAlternates, if_pos halt, h, ih, halt.1]

/-- C6: the greeting set built by `getAllFirstMessages` is exactly the
spec's GreetingSet (trimmed primary if non-empty, then the trimmed
non-empty alternates in order); the firstMessage section is emitted iff
that set is non-empty (an empty set yields no section at all); and on the
Aria record the set is `["Hello!", "Hi there!"]`, rendered as a swipe
section whose initial header reads `First Message (1/2)`. -/
theorem claim6_greeting_set (data : CharRecord) (useAccordion : Bool)
    (tabConfig : List (String × TabCfg)) (cfg : TabCfg)
    (hmem : ("firstMessage", cfg) ∈ tabConfig) (hvis : cfg.visible = true) :
    getAllFirstMessages data = specGreetingSet data ∧
    ((∃ s ∈ createCharacterBoxSections useAccordion tabConfig data,
        s.tabId = "firstMessage") ↔ getAllFirstMessages data ≠ []) ∧
    getAllFirstMessages ariaRecord = ["Hello!", "Hi there!"] ∧
    createFirstMessageSection false ariaRecord =
      some (SectionBody.swipe ["Hello!", "Hi there!"]) ∧
    swipeHeaderText (swipeInit ["Hello!", "Hi there!"]) = "First Message (1/2)" := by
  refine ⟨?_, ⟨?_, ?_⟩, by decide, by decide, by decide⟩
  · cases hfm : data.first_mes with
    | none => simp [getAllFirstMessages, specGreetingSet, hfm, collectAlternates_eq]
    | some s =>
      by_cases h : jsTrim s = "" <;>
        simp [getAllFirstMessages, specGreetingSet, hfm, h, collectAlternates_eq]
  · rintro ⟨s, hs, hsk⟩
    obtain ⟨e, _, _, hsr⟩ := mem_createCharacterBoxSections.mp hs
    obtain ⟨htab, _, hshape⟩ := renderTab_shape hsr
    have hek : e.1 = "firstMessage" := by rw [← htab, hsk]
    cases hshape with
    | inl h1 => exact h1.2.2.1
    | inr h2 => exact absurd hek h2.1
  · intro hne
    cases hcf : createFirstMessageSection useAccordion data with
    | none => exact absurd (createFirstMessageSection_eq_none.mp hcf) hne
    | some body =>
      refine ⟨{ tabId := "firstMessage", label := "First Message",
                body := body, expanded := cfg.expanded },
              mem_createCharacterBoxSections.mpr
                ⟨("firstMessage", cfg), hmem, hvis, ?_⟩, rfl⟩
      unfold renderTab
      rw [if_pos rfl, hcf]
      simp only [List.mem_singleton]

/-- Witness for C6 on the Aria record with the default configuration. -/
theorem claim6_witness :
    getAllFirstMessages ariaRecord = specGreetingSet ariaRecord ∧
    ((∃ s ∈ createCharacterBoxSections false defaultTabConfig ariaRecord,
        s.tabId = "firstMessage") ↔ getAllFirstMessages ariaRecord ≠ []) ∧
    getAllFirstMessages ariaRecord = ["Hello!", "Hi there!"] ∧
    createFirstMessageSection false ariaRecord =
      some (SectionBody.swipe ["Hello!", "Hi there!"]) ∧
    swipeHeaderText (swipeInit ["Hello!", "Hi there!"]) = "First Message (1/2)" :=
  claim6_greeting_set ariaRecord false defaultTabConfig
    { order := 1, visible := true, expanded := false } (by decide) rfl

/-- C7: a built section's content goes through the markdown renderer
exactly for the description and firstMessage kinds; every other emitted
section is literal text whose rendered HTML is the escaped source text for
every choice of markdown renderer (markup never interpreted). -/
theorem claim7_markdown_vs_literal (useAccordion : Bool) (data : CharRecord)
    (tabConfig : List (String × TabCfg)) (s : BuiltSection)
    (hmem : s ∈ createCharacterBoxSections useAccordion tabConfig data) :
    (bodyUsesMarkdown s.body = true ↔
      (s.tabId = "description" ∨ s.tabId = "firstMessage")) ∧
    (bodyUsesMarkdown s.body = false →
      ∃ t, s.body = SectionBody.literal t ∧
        ∀ renderMd, bodyInnerHtml renderMd s.body = htmlEscape t) := by
  obtain ⟨e, _, _, hsr⟩ := mem_createCharacterBoxSections.mp hmem
  obtain ⟨htab, _, hshape⟩ := renderTab_shape hsr
  constructor
  · cases hshape with
    | inl h1 =>
      obtain ⟨hk, -, -, hbody⟩ := h1
      cases hbody with
      | inl hb => rw [hb]; simp [bodyUsesMarkdown, htab, hk]
      | inr hb => rw [hb]; simp [bodyUsesMarkdown, htab, hk]
    | inr h2 =>
      obtain ⟨hkfm, label, content, um, hcf, -, -, -, hbody⟩ := h2
      rcases characterField_some hcf with
        ⟨hk, hum, -⟩ | ⟨hk, hum, -⟩ | ⟨hk, hum, -⟩ | ⟨hk, hum, -⟩ | ⟨hk, hum, -⟩ <;>
        subst hum <;> rw [hbody] <;>
        simp [bodyUsesMarkdown, htab, hk, hkfm]
  · intro hlit
    cases hb : s.body with
    | markdown t => rw [hb] at hlit; simp [bodyUsesMarkdown] at hlit
    | swipe ms => rw [hb] at hlit; simp [bodyUsesMarkdown] at hlit
    | accordion ms => rw [hb] at hlit; simp [bodyUsesMarkdown] at hlit
    | literal t => exact ⟨t, rfl, fun renderMd => rfl⟩

/-- Witness for C7 at the Description section emitted for the empty record
under the default configuration. -/
theorem claim7_witness :
    (bodyUsesMarkdown (SectionBody.markdown "No description available.") = true ↔
      ((⟨"description", "Description",
          SectionBody.markdown "No description available.", true⟩ :
            BuiltSection).tabId = "description" ∨
       (⟨"description", "Description",
          SectionBody.markdown "No description available.", true⟩ :
            BuiltSection).tabId = "firstMessage")) ∧
    (bodyUsesMarkdown (SectionBody.markdown "No description available.") = false →
      ∃ t, SectionBody.markdown "No description available." =
          SectionBody.literal t ∧
        ∀ renderMd, bodyInnerHtml renderMd
            (SectionBody.markdown "No description available.") = htmlEscape t) :=
  claim7_markdown_vs_literal false {} defaultTabConfig
    ⟨"description", "Description",
      SectionBody.markdown "No description available.", true⟩
    (by decide)

/-- Writing a property and reading it back. -/
theorem objGet_objSet_self (o : JObj) (k : String) (v : JVal) :
    objGet (objSet o k v) k = some v := by
  induction o with
  | nil => simp [objSet, objGet]
  | cons e rest ih =>
    by_cases h : e.1 = k
    · simp [objSet, h, objGet]
    · simp [objSet, h, objGet, ih]

/-- Writing one property does not affect reads of any other property. -/
theorem objGet_objSet_ne (o : JObj) (k : String) (v : JVal) (k' : String)
    (h : k' ≠ k) : objGet (objSet o k v) k' = objGet o k' := by
  induction o with
  | nil => simp [objSet, objGet, Ne.symm h]
  | cons e rest ih =>
    by_cases he : e.1 = k
    · simp [objSet, he, objGet, Ne.symm h]
    · simp [objSet, he, objGet, ih]

/-- A key outside the key list reads as absent. -/
theorem objGet_eq_none_of_not_mem {o : JObj} {k : String}
    (h : k ∉ o.map Prod.fst) : objGet o k = none := by
  induction o with
  | nil => rfl
  | cons e rest ih =>
    simp only [List.map_cons, List.mem_cons] at h
    push_neg at h
    have hne : e.1 ≠ k := fun he => h.1 he.symm
    simp [objGet, hne, ih h.2]

/-- `Object.assign` leaves properties the source does not mention unchanged. -/
theorem objGet_objAssign_of_none {p : JObj} {k : String}
    (hp : objGet p k = none) (t : JObj) :
    objGet (objAssign t p) k = objGet t k := by
  induction p generalizing t with
  | nil => rfl
  | cons e rest ih =>
    obtain ⟨k0, v0⟩ := e
    by_cases h : k0 = k
    · rw [show objGet ((k0, v0) :: rest) k = some v0 by simp [objGet, h]] at hp
      exact Option.noConfusion hp
    · have hp' : objGet rest k = none := by simpa [objGet, h] using hp
      have hstep : objAssign t ((k0, v0) :: rest) =
          objAssign (objSet t k0 v0) rest := rfl
      rw [hstep, ih hp', objGet_objSet_ne t k0 v0 k (Ne.symm h)]

/-- `Object.assign` copies every property the (duplicate-free) source holds. -/
theorem objGet_objAssign_of_some {p : JObj} {k : String} {v : JVal}
    (hkeys : (p.map Prod.fst).Nodup) (hp : objGet p k = some v) (t : JObj) :
    objGet (objAssign t p) k = some v := by
  induction p generalizing t with
  | nil => exact Option.noConfusion hp
  | cons e rest ih =>
    obtain ⟨k0, v0⟩ := e
    simp only [List.map_cons, List.nodup_cons] at hkeys
    obtain ⟨h0, hrest⟩ := hkeys
    have hstep : objAssign t ((k0, v0) :: rest) =
        objAssign (objSet t k0 v0) rest := rfl
    by_cases h : k0 = k
    · subst h
      have hv : v0 = v := by
        rw [show objGet ((k0, v0) :: rest) k0 = some v0 by simp [objGet]] at hp
        exact Option.some.inj hp
      have hnone : objGet rest k0 = none := objGet_eq_none_of_not_mem h0
      rw [hstep, objGet_objAssign_of_none hnone, objGet_objSet_self, hv]
    · have hp' : objGet rest k = some v := by simpa [objGet, h] using hp
      rw [hstep, ih hrest hp']

/-- A tab id outside the key list reads as absent. -/
theorem tabLookup_eq_none_of_not_mem {l : List (String × TabCfg)} {k : String}
    (h : k ∉ l.map Prod.fst) : tabLookup l k = none := by
  induction l with
  | nil => rfl
  | cons e rest ih =>
    simp only [List.map_cons, List.mem_cons] at h
    push_neg at h
    have hne : e.1 ≠ k := fun he => h.1 he.symm
    simp [tabLookup, hne, ih h.2]

/-- Lookup distributes over append. -/
theorem tabLookup_append (l1 l2 : List (String × TabCfg)) (k : String) :
    tabLookup (l1 ++ l2) k =
      match tabLookup l1 k with
      | some v => some v
      | none => tabLookup l2 k := by
  induction l1 with
  | nil => rfl
  | cons e rest ih =>
    by_cases h : e.1 = k <;> simp [tabLookup, h, ih]

/-- The backfill loop never overwrites an entry that is already present. -/
theorem backfill_aux_preserves (dflts : List (String × TabCfg))
    {entries : List (String × TabCfg)} {k : String} {c : TabCfg}
    (h : tabLookup entries k = some c) :
    tabLookup
      (dflts.foldl
        (fun acc e => if (tabLookup acc e.1).isSome then acc
                      else acc ++ [(e.1, e.2)])
        entries) k = some c := by
  induction dflts generalizing entries with
  | nil => simpa using h
  | cons d rest ih =>
    simp only [List.foldl_cons]
    by_cases hd : (tabLookup entries d.1).isSome
    · rw [if_pos hd]; exact ih h
    · rw [if_neg hd]
      exact ih (by simp [tabLookup_append, h])

/-- The backfill loop adds the default entry for every missing tab id. -/
theorem backfill_aux_adds (dflts : List (String × TabCfg))
    (hnod : (dflts.map Prod.fst).Nodup)
    {entries : List (String × TabCfg)} {k : String} {d : TabCfg}
    (hd : tabLookup dflts k = some d) (he : tabLookup entries k = none) :
    tabLookup
      (dflts.foldl
        (fun acc e => if (tabLookup acc e.1).isSome then acc
                      else acc ++ [(e.1, e.2)])
        entries) k = some d := by
  induction dflts generalizing entries with
  | nil => exact Option.noConfusion hd
  | cons d0 rest ih =>
    simp only [List.map_cons, List.nodup_cons] at hnod
    obtain ⟨h0, hrest⟩ := hnod
    simp only [List.foldl_cons]
    by_cases hk : d0.1 = k
    · have hdval : d0.2 = d := by
        rw [show tabLookup (d0 :: rest) k = some d0.2 by simp [tabLookup, hk]] at hd
        exact Option.some.inj hd
      have hins : ¬(tabLookup entries d0.1).isSome = true := by
        rw [hk, he]; simp
      rw [if_neg hins]
      refine backfill_aux_preserves rest ?_
      simp [tabLookup_append, he, tabLookup, hk, hdval]
    · have hd' : tabLookup rest k = some d := by simpa [tabLookup, hk] using hd
      by_cases hins : (tabLookup entries d0.1).isSome
      · rw [if_pos hins]; exact ih hrest hd' he
      · rw [if_neg hins]
        exact ih hrest hd' (by simp [tabLookup_append, he, tabLookup, hk])

/-- C4: `loadSettings` merges persisted settings over the hard-coded
defaults: top-level keys absent from the persisted object keep their
default, persisted values for keys other than `tabConfig` are preserved
verbatim (in particular unknown/extra keys are never discarded), persisted
tab entries inside `tabConfig` are preserved while tab ids present in the
defaults but missing from the persisted config are backfilled with their
default `{order, visible, expanded}`, and a persisted object without a
`tabConfig` key ends up with the full default tab config. -/
theorem claim4_loadSettings_merge (p : JObj)
    (hkeys : (p.map Prod.fst).Nodup)
    (htc : ∀ v, objGet p "tabConfig" = some v →
      ∃ entries, v = JVal.tabs entries) :
    ∃ merged, loadSettings (some p) = some merged ∧
      (∀ k, k ≠ "tabConfig" → objGet p k = none →
        objGet merged k = objGet defaultSettings k) ∧
      (∀ k v, k ≠ "tabConfig" → objGet p k = some v →
        objGet merged k = some v) ∧
      (∀ entries, objGet p "tabConfig" = some (JVal.tabs entries) →
        ∃ mergedTabs,
          objGet merged "tabConfig" = some (JVal.tabs mergedTabs) ∧
          (∀ id c, tabLookup entries id = some c →
            tabLookup mergedTabs id = some c) ∧
          (∀ id d, tabLookup defaultTabConfig id = some d →
            tabLookup entries id = none →
            tabLookup mergedTabs id = some d)) ∧
      (objGet p "tabConfig" = none →
        objGet merged "tabConfig" = some (JVal.tabs defaultTabConfig)) := by
  cases hp : objGet p "tabConfig" with
  | some v =>
    obtain ⟨entries, rfl⟩ := htc v hp
    have hstc : objGet (objAssign defaultSettings p) "tabConfig" =
        some (JVal.tabs entries) := objGet_objAssign_of_some hkeys hp _
    have hload : loadSettings (some p) =
        some (objSet (objAssign defaultSettings p) "tabConfig"
          (JVal.tabs (backfillTabConfig entries))) := by
      simp only [loadSettings, hstc, jsTruthy, if_true]
    refine ⟨_, hload, ?_, ?_, ?_, ?_⟩
    · intro k hk hnone
      rw [objGet_objSet_ne _ _ _ _ hk, objGet_objAssign_of_none hnone]
    · intro k w hk hsome
      rw [objGet_objSet_ne _ _ _ _ hk]
      exact objGet_objAssign_of_some hkeys hsome _
    · intro entries2 hp2
      obtain rfl : entries = entries2 :=
        JVal.tabs.inj (Option.some.inj hp2)
      refine ⟨backfillTabConfig entries, objGet_objSet_self _ _ _, ?_, ?_⟩
      · intro id c hc
        exact backfill_aux_preserves defaultTabConfig hc
      · intro id d hd he
        exact backfill_aux_adds defaultTabConfig (by decide) hd he
    · intro hnone
      exact Option.noConfusion hnone
  | none =>
    have hstc : objGet (objAssign defaultSettings p) "tabConfig" =
        some (JVal.tabs defaultTabConfig) := by
      rw [objGet_objAssign_of_none hp]
      rfl
    have hbf : backfillTabConfig defaultTabConfig = defaultTabConfig := by
      decide
    have hload : loadSettings (some p) =
        some (objSet (objAssign defaultSettings p) "tabConfig"
          (JVal.tabs defaultTabConfig)) := by
      simp only [loadSettings, hstc, jsTruthy, if_true]
      rw [hbf]
    refine ⟨_, hload, ?_, ?_, ?_, ?_⟩
    · intro k hk hnone
      rw [objGet_objSet_ne _ _ _ _ hk, objGet_objAssign_of_none hnone]
    · intro k w hk hsome
      rw [objGet_objSet_ne _ _ _ _ hk]
      exact objGet_objAssign_of_some hkeys hsome _
    · intro entries2 hp2
      exact Option.noConfusion hp2
    · intro _
      exact objGet_objSet_self _ _ _

/-- Witness for C4 on a persisted object holding an overridden width, an
unknown extra key, and a `tabConfig` that misses five of the six kinds. -/
theorem claim4_witness :
    ∃ merged,
      loadSettings (some [("boxWidth", JVal.num 50), ("extraKey", JVal.str "x"),
        ("tabConfig", JVal.tabs
          [("description", ⟨5, false, false⟩)])]) = some merged ∧
      (∀ k, k ≠ "tabConfig" →
        objGet [("boxWidth", JVal.num 50), ("extraKey", JVal.str "x"),
          ("tabConfig", JVal.tabs [("description", ⟨5, false, false⟩)])] k = none →
        objGet merged k = objGet defaultSettings k) ∧
      (∀ k v, k ≠ "tabConfig" →
        objGet [("boxWidth", JVal.num 50), ("extraKey", JVal.str "x"),
          ("tabConfig", JVal.tabs [("description", ⟨5, false, false⟩)])] k = some v →
        objGet merged k = some v) ∧
      (∀ entries,
        objGet [("boxWidth", JVal.num 50), ("extraKey", JVal.str "x"),
          ("tabConfig", JVal.tabs [("description", ⟨5, false, false⟩)])] "tabConfig"
          = some (JVal.tabs entries) →
        ∃ mergedTabs,
          objGet merged "tabConfig" = some (JVal.tabs mergedTabs) ∧
          (∀ id c, tabLookup entries id = some c →
            tabLookup mergedTabs id = some c) ∧
          (∀ id d, tabLookup defaultTabConfig id = some d →
            tabLookup entries id = none →
            tabLookup mergedTabs id = some d)) ∧
      (objGet [("boxWidth", JVal.num 50), ("extraKey", JVal.str "x"),
          ("tabConfig", JVal.tabs [("description", ⟨5, false, false⟩)])] "tabConfig"
          = none →
        objGet merged "tabConfig" = some (JVal.tabs defaultTabConfig)) :=
  claim4_loadSettings_merge
    [("boxWidth", JVal.num 50), ("extraKey", JVal.str "x"),
     ("tabConfig", JVal.tabs [("description", ⟨5, false, false⟩)])]
    (by decide)
    (fun v h => ⟨[("description", ⟨5, false, false⟩)],
      (Option.some.inj h).symm⟩)

/-- The sorted tab list is a permutation of the original entries. -/
theorem sortTabs_perm (cfg : List (String × TabCfg)) :
    List.Perm (sortTabs cfg) cfg :=
  List.perm_insertionSort tabLE cfg

/-- The sorted tab list is sorted by `order`. -/
theorem sortTabs_sorted (cfg : List (String × TabCfg)) :
    List.Sorted tabLE (sortTabs cfg) :=
  List.sorted_insertionSort tabLE cfg

/-- With pairwise-distinct `order` values, sorted-by-`≤` is sorted-by-`<`. -/
theorem sorted_tabLT_of_le {l : List (String × TabCfg)}
    (hle : List.Sorted tabLE l)
    (hnd : (l.map (fun e => e.2.order)).Nodup) :
    List.Sorted tabLT l := by
  have hne : l.Pairwise (fun a b => a.2.order ≠ b.2.order) :=
    List.pairwise_map.mp hnd
  exact (hle.and hne).imp (fun h => lt_of_le_of_ne h.1 h.2)

/-- In a list with duplicate-free keys, entries are determined by their key. -/
theorem eq_of_mem_keyNodup {l : List (String × TabCfg)}
    (h : (l.map Prod.fst).Nodup) {a b : String × TabCfg}
    (ha : a ∈ l) (hb : b ∈ l) (hab : a.1 = b.1) : a = b := by
  induction l with
  | nil => cases ha
  | cons x rest ih =>
    simp only [List.map_cons, List.nodup_cons] at h
    obtain ⟨hx, hrest⟩ := h
    rcases List.mem_cons.mp ha with rfl | ha' <;>
      rcases List.mem_cons.mp hb with rfl | hb'
    · rfl
    · exact absurd (hab ▸ List.mem_map_of_mem Prod.fst hb') hx
    · exact absurd (hab ▸ List.mem_map_of_mem Prod.fst ha') (hab ▸ hx)
    · exact ih hrest ha' hb'

/-- Evaluation of `swapTabOrder` when the tab is found at index `i` and the
target index `j` is in range: the `order` values of the two sorted
neighbours are swapped in the config object. -/
theorem swapTabOrder_eval (cfg : List (String × TabCfg)) (tabId : String)
    (d : Int) (i j : Nat)
    (hfind : (sortTabs cfg).findIdx? (fun e => e.1 == tabId) = some i)
    (hij : (i : Int) + d = (j : Int))
    (hjlen : j < (sortTabs cfg).length)
    {cur tgt : String × TabCfg}
    (hcur : (sortTabs cfg)[i]? = some cur)
    (htgt : (sortTabs cfg)[j]? = some tgt) :
    swapTabOrder cfg tabId d =
      some (setTabOrder (setTabOrder cfg cur.1 tgt.2.order) tgt.1 cur.2.order) := by
  simp only [swapTabOrder, hfind, Option.map_some', Option.getD_some]
  rw [if_neg (by omega), if_neg (by omega)]
  have hti : ((i : Int)).toNat = i := Int.toNat_ofNat i
  have htj : ((i : Int) + d).toNat = j := by rw [hij]; exact Int.toNat_ofNat j
  rw [hti, htj, hcur, htgt]

/-- The two sequential `order` writes of `swapTabOrder` (current first) are
one map of `swapOrderFn` over the entries. -/
theorem setTabOrder_swap_eq_map (cfg : List (String × TabCfg))
    (u v : String × TabCfg) (hne : u.1 ≠ v.1) :
    setTabOrder (setTabOrder cfg u.1 v.2.order) v.1 u.2.order =
      cfg.map (swapOrderFn u v) := by
  unfold setTabOrder
  rw [List.map_map]
  apply List.map_congr_left
  intro e _
  simp only [Function.comp]
  by_cases h1 : e.1 = u.1
  · rw [if_pos h1, if_neg (by simpa [h1] using hne)]
    simp [swapOrderFn, h1]
  · rw [if_neg h1]
    by_cases h2 : e.1 = v.1
    · rw [if_pos h2]; simp [swapOrderFn, h1, h2, Ne.symm hne]
    · rw [if_neg h2]; simp [swapOrderFn, h1, h2]

/-- The same, when the target entry is written first. -/
theorem setTabOrder_swap_eq_map' (cfg : List (String × TabCfg))
    (u v : String × TabCfg) (hne : u.1 ≠ v.1) :
    setTabOrder (setTabOrder cfg v.1 u.2.order) u.1 v.2.order =
      cfg.map (swapOrderFn u v) := by
  unfold setTabOrder
  rw [List.map_map]
  apply List.map_congr_left
  intro e _
  simp only [Function.comp]
  by_cases h2 : e.1 = v.1
  · rw [if_pos h2, if_neg (by simp [h2, Ne.symm hne])]
    simp [swapOrderFn, h2, Ne.symm hne]
  · rw [if_neg h2]
    by_cases h1 : e.1 = u.1
    · rw [if_pos h1]; simp [swapOrderFn, h1, h2]
    · rw [if_neg h1]; simp [swapOrderFn, h1, h2]

/-- Core sorting fact: swapping the `order` values of two *adjacent*
entries of the sorted sequence (positions `p`, `p+1`) and re-sorting yields
the same sequence with those two positions exchanged (each entry carrying
its newly assigned order), provided keys and orders are duplicate-free. -/
theorem sortTabs_map_swap (cfg : List (String × TabCfg))
    (hkeys : (cfg.map Prod.fst).Nodup)
    (hords : (cfg.map (fun e => e.2.order)).Nodup)
    (p : Nat) {u v : String × TabCfg}
    (hu : (sortTabs cfg)[p]? = some u)
    (hv : (sortTabs cfg)[p + 1]? = some v) :
    sortTabs (cfg.map (swapOrderFn u v)) =
      (sortTabs cfg).take p ++
        (v.1, { v.2 with order := u.2.order }) ::
        (u.1, { u.2 with order := v.2.order }) ::
        (sortTabs cfg).drop (p + 2) := by
  obtain ⟨hp1, hu'⟩ := List.getElem?_eq_some_iff.mp hu
  obtain ⟨hp2, hv'⟩ := List.getElem?_eq_some_iff.mp hv
  have hdecomp : sortTabs cfg =
      (sortTabs cfg).take p ++ u :: v :: (sortTabs cfg).drop (p + 2) := by
    conv_lhs => rw [← List.take_append_drop p (sortTabs cfg)]
    congr 1
    rw [List.drop_eq_getElem_cons hp1, hu', List.drop_eq_getElem_cons hp2, hv']
  have hkeys_s : ((sortTabs cfg).map Prod.fst).Nodup :=
    (((sortTabs_perm cfg).map Prod.fst).nodup_iff).mpr hkeys
  have hords_s : ((sortTabs cfg).map (fun e => e.2.order)).Nodup :=
    (((sortTabs_perm cfg).map _).nodup_iff).mpr hords
  have hkeyfacts : (∀ e ∈ (sortTabs cfg).take p, e.1 ≠ u.1 ∧ e.1 ≠ v.1) ∧
      u.1 ≠ v.1 ∧
      (∀ e ∈ (sortTabs cfg).drop (p + 2), e.1 ≠ u.1 ∧ e.1 ≠ v.1) := by
    rw [hdecomp, List.map_append, List.map_cons, List.map_cons] at hkeys_s
    obtain ⟨-, h2, hdisj⟩ := List.nodup_append.mp hkeys_s
    obtain ⟨hu_notmem, h3⟩ := List.nodup_cons.mp h2
    obtain ⟨hv_notmem, -⟩ := List.nodup_cons.mp h3
    refine ⟨?_, ?_, ?_⟩
    · intro e he
      constructor
      · intro hek
        exact hdisj (hek ▸ List.mem_map_of_mem Prod.fst he) (List.mem_cons_self _ _)
      · intro hek
        exact hdisj (hek ▸ List.mem_map_of_mem Prod.fst he)
          (List.mem_cons.mpr (Or.inr (List.mem_cons_self _ _)))
    · intro huv
      exact hu_notmem (List.mem_cons.mpr (Or.inl huv))
    · intro e he
      constructor
      · intro hek
        exact hu_notmem (List.mem_cons.mpr
          (Or.inr (hek ▸ List.mem_map_of_mem Prod.fst he)))
      · intro hek
        exact hv_notmem (hek ▸ List.mem_map_of_mem Prod.fst he)
  obtain ⟨hP, huv, hS⟩ := hkeyfacts
  have hPmap : ((sortTabs cfg).take p).map (swapOrderFn u v) =
      (sortTabs cfg).take p := by
    rw [show ((sortTabs cfg).take p).map (swapOrderFn u v) =
        ((sortTabs cfg).take p).map id from
      List.map_congr_left (fun e he => by
        unfold swapOrderFn
        rw [if_neg (hP e he).1, if_neg (hP e he).2]
        rfl)]
    exact List.map_id _
  have hSmap : ((sortTabs cfg).drop (p + 2)).map (swapOrderFn u v) =
      (sortTabs cfg).drop (p + 2) := by
    rw [show ((sortTabs cfg).drop (p + 2)).map (swapOrderFn u v) =
        ((sortTabs cfg).drop (p + 2)).map id from
      List.map_congr_left (fun e he => by
        unfold swapOrderFn
        rw [if_neg (hS e he).1, if_neg (hS e he).2]
        rfl)]
    exact List.map_id _
  have hfu : swapOrderFn u v u = (u.1, { u.2 with order := v.2.order }) := by
    unfold swapOrderFn
    rw [if_pos rfl]
  have hfv : swapOrderFn u v v = (v.1, { v.2 with order := u.2.order }) := by
    unfold swapOrderFn
    rw [if_neg (Ne.symm huv), if_pos rfl]
  have hmap : (sortTabs cfg).map (swapOrderFn u v) =
      (sortTabs cfg).take p ++
        (u.1, { u.2 with order := v.2.order }) ::
        (v.1, { v.2 with order := u.2.order }) ::
        (sortTabs cfg).drop (p + 2) := by
    conv_lhs => rw [hdecomp]
    simp only [List.map_append, List.map_cons]
    rw [hPmap, hSmap, hfu, hfv]
  have hswap : List.Perm
      ((sortTabs cfg).take p ++
        (v.1, { v.2 with order := u.2.order }) ::
        (u.1, { u.2 with order := v.2.order }) ::
        (sortTabs cfg).drop (p + 2))
      ((sortTabs cfg).map (swapOrderFn u v)) := by
    rw [hmap]
    exact List.Perm.append_left _ (List.Perm.swap _ _ _)
  have hperm_c : List.Perm (cfg.map (swapOrderFn u v))
      ((sortTabs cfg).take p ++
        (v.1, { v.2 with order := u.2.order }) ::
        (u.1, { u.2 with order := v.2.order }) ::
        (sortTabs cfg).drop (p + 2)) :=
    (((sortTabs_perm cfg).symm.map _).trans hswap.symm)
  have hc_orders :
      ((sortTabs cfg).take p ++
        (v.1, { v.2 with order := u.2.order }) ::
        (u.1, { u.2 with order := v.2.order }) ::
        (sortTabs cfg).drop (p + 2)).map (fun e => e.2.order) =
      (sortTabs cfg).map (fun e => e.2.order) := by
    conv_rhs => rw [hdecomp]
    simp only [List.map_append, List.map_cons]
  have hsorted_lt : List.Sorted tabLT (sortTabs cfg) :=
    sorted_tabLT_of_le (sortTabs_sorted cfg) hords_s
  have hc_sorted : List.Sorted tabLT
      ((sortTabs cfg).take p ++
        (v.1, { v.2 with order := u.2.order }) ::
        (u.1, { u.2 with order := v.2.order }) ::
        (sortTabs cfg).drop (p + 2)) := by
    have h1 : List.Pairwise (· < ·)
        ((sortTabs cfg).map (fun e => e.2.order)) :=
      List.pairwise_map.mpr hsorted_lt
    rw [← hc_orders] at h1
    have h2 := List.pairwise_map.mp h1
    exact h2
  have hords_c : ((cfg.map (swapOrderFn u v)).map (fun e => e.2.order)).Nodup := by
    have hh := hperm_c.map (fun e => e.2.order)
    rw [hc_orders] at hh
    exact hh.nodup_iff.mpr hords_s
  have hs2 : List.Sorted tabLT (sortTabs (cfg.map (swapOrderFn u v))) := by
    refine sorted_tabLT_of_le (sortTabs_sorted _) ?_
    have hh := (sortTabs_perm (cfg.map (swapOrderFn u v))).map (fun e => e.2.order)
    exact hh.nodup_iff.mpr hords_c
  exact List.eq_of_perm_of_sorted
    ((sortTabs_perm _).trans hperm_c) hs2 hc_sorted

/-- Swapping two entries' orders and then swapping them back restores every
entry of a key-duplicate-free config. -/
theorem map_swapOrderFn_swapOrderFn (cfg : List (String × TabCfg))
    (hkeys : (cfg.map Prod.fst).Nodup) {u v : String × TabCfg}
    (hu : u ∈ cfg) (hv : v ∈ cfg) (hne : u.1 ≠ v.1) :
    (cfg.map (swapOrderFn u v)).map
      (swapOrderFn (u.1, { u.2 with order := v.2.order })
        (v.1, { v.2 with order := u.2.order })) = cfg := by
  rw [List.map_map]
  have hpt : ∀ e ∈ cfg,
      (swapOrderFn (u.1, { u.2 with order := v.2.order })
          (v.1, { v.2 with order := u.2.order }) ∘ swapOrderFn u v) e = e := by
    intro e he
    simp only [Function.comp]
    by_cases h1 : e.1 = u.1
    · have heu : e = u := eq_of_mem_keyNodup hkeys he hu h1
      subst heu
      simp [swapOrderFn]
    · by_cases h2 : e.1 = v.1
      · have hev : e = v := eq_of_mem_keyNodup hkeys he hv h2
        subst hev
        simp [swapOrderFn, h1]
      · simp [swapOrderFn, h1, h2]
  calc cfg.map _ = cfg.map id := List.map_congr_left (fun e he => hpt e he)
    _ = cfg := List.map_id cfg

/-- Distinct positions of the sorted sequence carry distinct keys. -/
theorem sorted_keys_ne (cfg : List (String × TabCfg))
    (hkeys : (cfg.map Prod.fst).Nodup) {i j : Nat} (hne : i ≠ j)
    {cu tg : String × TabCfg}
    (hcu : (sortTabs cfg)[i]? = some cu)
    (htg : (sortTabs cfg)[j]? = some tg) : cu.1 ≠ tg.1 := by
  obtain ⟨hi, hcu'⟩ := List.getElem?_eq_some_iff.mp hcu
  obtain ⟨hj, htg'⟩ := List.getElem?_eq_some_iff.mp htg
  have hkeys_s : ((sortTabs cfg).map Prod.fst).Nodup :=
    (((sortTabs_perm cfg).map Prod.fst).nodup_iff).mpr hkeys
  intro heq
  apply hne
  have hi' : i < ((sortTabs cfg).map Prod.fst).length := by simpa using hi
  have hj' : j < ((sortTabs cfg).map Prod.fst).length := by simpa using hj
  have hsame : ((sortTabs cfg).map Prod.fst)[i] =
      ((sortTabs cfg).map Prod.fst)[j] := by
    rw [List.getElem_map, List.getElem_map, hcu', htg']
    exact heq
  exact (hkeys_s.getElem_inj_iff).mp hsame

/-- C10: a non-boundary `swapTabOrder` call rewrites exactly the `order`
fields of the clicked tab and of its immediate neighbour in the sorted
order (visible or not); every entry's key, `visible` and `expanded` flags
are untouched, every other entry is untouched entirely, and at the level of
the whole settings object every property other than `tabConfig` is
untouched. -/
theorem claim10_reorder_frame (cfg : List (String × TabCfg)) (tabId : String)
    (d : Int) (i j : Nat)
    (hkeys : (cfg.map Prod.fst).Nodup)
    (hd : d = 1 ∨ d = -1)
    (hfind : (sortTabs cfg).findIdx? (fun e => e.1 == tabId) = some i)
    (hij : (i : Int) + d = (j : Int))
    (hjlen : j < (sortTabs cfg).length) :
    ∃ cur tgt cfg2,
      (sortTabs cfg)[i]? = some cur ∧ (sortTabs cfg)[j]? = some tgt ∧
      cur.1 = tabId ∧
      swapTabOrder cfg tabId d = some cfg2 ∧
      cfg2.length = cfg.length ∧
      (∀ idx (h1 : idx < cfg.length) (h2 : idx < cfg2.length),
        ((cfg2.get ⟨idx, h2⟩).1 = (cfg.get ⟨idx, h1⟩).1 ∧
         (cfg2.get ⟨idx, h2⟩).2.visible = (cfg.get ⟨idx, h1⟩).2.visible ∧
         (cfg2.get ⟨idx, h2⟩).2.expanded = (cfg.get ⟨idx, h1⟩).2.expanded) ∧
        ((cfg.get ⟨idx, h1⟩).1 ≠ cur.1 → (cfg.get ⟨idx, h1⟩).1 ≠ tgt.1 →
          cfg2.get ⟨idx, h2⟩ = cfg.get ⟨idx, h1⟩) ∧
        ((cfg.get ⟨idx, h1⟩).1 = cur.1 →
          (cfg2.get ⟨idx, h2⟩).2.order = tgt.2.order) ∧
        ((cfg.get ⟨idx, h1⟩).1 = tgt.1 →
          (cfg2.get ⟨idx, h2⟩).2.order = cur.2.order)) ∧
      (∀ s : JObj, objGet s "tabConfig" = some (JVal.tabs cfg) →
        swapTabOrderSettings s tabId d =
          some (objSet s "tabConfig" (JVal.tabs cfg2)) ∧
        (∀ k, k ≠ "tabConfig" →
          objGet (objSet s "tabConfig" (JVal.tabs cfg2)) k = objGet s k)) := by
  obtain ⟨hilen, hpred, -⟩ := List.findIdx?_eq_some_iff_getElem.mp hfind
  have hij_ne : i ≠ j := by omega
  have hcur : (sortTabs cfg)[i]? = some ((sortTabs cfg).get ⟨i, hilen⟩) := by
    simp [List.getElem?_eq_getElem hilen, List.get_eq_getElem]
  have htgt : (sortTabs cfg)[j]? = some ((sortTabs cfg).get ⟨j, hjlen⟩) := by
    simp [List.getElem?_eq_getElem hjlen, List.get_eq_getElem]
  set cur := (sortTabs cfg).get ⟨i, hilen⟩ with hcurdef
  set tgt := (sortTabs cfg).get ⟨j, hjlen⟩ with htgtdef
  have hkne : cur.1 ≠ tgt.1 := sorted_keys_ne cfg hkeys hij_ne hcur htgt
  have heval : swapTabOrder cfg tabId d =
      some (setTabOrder (setTabOrder cfg cur.1 tgt.2.order) tgt.1 cur.2.order) :=
    swapTabOrder_eval cfg tabId d i j hfind hij hjlen hcur htgt
  rw [setTabOrder_swap_eq_map cfg cur tgt hkne] at heval
  have hkey : cur.1 = tabId := by
    have := hpred
    simpa using this
  refine ⟨cur, tgt, cfg.map (swapOrderFn cur tgt), hcur, htgt, hkey, heval,
    by simp, ?_, ?_⟩
  · intro idx h1 h2
    have hmapget : (cfg.map (swapOrderFn cur tgt)).get ⟨idx, h2⟩ =
        swapOrderFn cur tgt (cfg.get ⟨idx, h1⟩) := by
      simp [List.get_eq_getElem, List.getElem_map]
    rw [hmapget]
    set e := cfg.get ⟨idx, h1⟩ with hedef
    refine ⟨?_, ?_, ?_, ?_⟩
    · unfold swapOrderFn
      split_ifs <;> simp
    · intro hne1 hne2
      unfold swapOrderFn
      rw [if_neg hne1, if_neg hne2]
    · intro h
      unfold swapOrderFn
      rw [if_pos h]
    · intro h
      by_cases hcu : e.1 = cur.1
      · unfold swapOrderFn
        rw [if_pos hcu]
        simp only
        rw [← hcu, h] at hkne
        exact absurd rfl hkne
      · unfold swapOrderFn
        rw [if_neg hcu, if_pos h]
  · intro s hs
    constructor
    · simp only [swapTabOrderSettings, hs, heval, Option.map_some']
    · intro k hk
      exact objGet_objSet_ne s "tabConfig" (JVal.tabs (cfg.map (swapOrderFn cur tgt))) k hk

/-- Witness for C10: moving the personality tab (sorted index 3) down in
the default configuration. -/
theorem claim10_witness :
    ∃ cur tgt cfg2,
      (sortTabs defaultTabConfig)[3]? = some cur ∧
      (sortTabs defaultTabConfig)[4]? = some tgt ∧
      cur.1 = "personality" ∧
      swapTabOrder defaultTabConfig "personality" 1 = some cfg2 ∧
      cfg2.length = defaultTabConfig.length ∧
      (∀ idx (h1 : idx < defaultTabConfig.length) (h2 : idx < cfg2.length),
        ((cfg2.get ⟨idx, h2⟩).1 = (defaultTabConfig.get ⟨idx, h1⟩).1 ∧
         (cfg2.get ⟨idx, h2⟩).2.visible =
           (defaultTabConfig.get ⟨idx, h1⟩).2.visible ∧
         (cfg2.get ⟨idx, h2⟩).2.expanded =
           (defaultTabConfig.get ⟨idx, h1⟩).2.expanded) ∧
        ((defaultTabConfig.get ⟨idx, h1⟩).1 ≠ cur.1 →
          (defaultTabConfig.get ⟨idx, h1⟩).1 ≠ tgt.1 →
          cfg2.get ⟨idx, h2⟩ = defaultTabConfig.get ⟨idx, h1⟩) ∧
        ((defaultTabConfig.get ⟨idx, h1⟩).1 = cur.1 →
          (cfg2.get ⟨idx, h2⟩).2.order = tgt.2.order) ∧
        ((defaultTabConfig.get ⟨idx, h1⟩).1 = tgt.1 →
          (cfg2.get ⟨idx, h2⟩).2.order = cur.2.order)) ∧
      (∀ s : JObj, objGet s "tabConfig" = some (JVal.tabs defaultTabConfig) →
        swapTabOrderSettings s "personality" 1 =
          some (objSet s "tabConfig" (JVal.tabs cfg2)) ∧
        (∀ k, k ≠ "tabConfig" →
          objGet (objSet s "tabConfig" (JVal.tabs cfg2)) k = objGet s k)) :=
  claim10_reorder_frame defaultTabConfig "personality" 1 3 4
    (by decide) (Or.inl rfl) (by decide) (by decide) (by decide)

/-- Keys of the sorted prefix and suffix around two adjacent positions
differ from the keys at those positions (duplicate-free keys). -/
theorem sorted_decomp_key_facts (cfg : List (String × TabCfg))
    (hkeys : (cfg.map Prod.fst).Nodup) (p : Nat) {u v : String × TabCfg}
    (hu : (sortTabs cfg)[p]? = some u)
    (hv : (sortTabs cfg)[p + 1]? = some v) :
    (∀ e ∈ (sortTabs cfg).take p, e.1 ≠ u.1 ∧ e.1 ≠ v.1) ∧ u.1 ≠ v.1 ∧
    (∀ e ∈ (sortTabs cfg).drop (p + 2), e.1 ≠ u.1 ∧ e.1 ≠ v.1) := by
  obtain ⟨hp1, hu'⟩ := List.getElem?_eq_some_iff.mp hu
  obtain ⟨hp2, hv'⟩ := List.getElem?_eq_some_iff.mp hv
  have hdecomp : sortTabs cfg =
      (sortTabs cfg).take p ++ u :: v :: (sortTabs cfg).drop (p + 2) := by
    conv_lhs => rw [← List.take_append_drop p (sortTabs cfg)]
    congr 1
    rw [List.drop_eq_getElem_cons hp1, hu', List.drop_eq_getElem_cons hp2, hv']
  have hkeys_s : ((sortTabs cfg).map Prod.fst).Nodup :=
    (((sortTabs_perm cfg).map Prod.fst).nodup_iff).mpr hkeys
  rw [hdecomp, List.map_append, List.map_cons, List.map_cons] at hkeys_s
  obtain ⟨-, h2, hdisj⟩ := List.nodup_append.mp hkeys_s
  obtain ⟨hu_notmem, h3⟩ := List.nodup_cons.mp h2
  obtain ⟨hv_notmem, -⟩ := List.nodup_cons.mp h3
  refine ⟨?_, ?_, ?_⟩
  · intro e he
    constructor
    · intro hek
      exact hdisj (hek ▸ List.mem_map_of_mem Prod.fst he) (List.mem_cons_self _ _)
    · intro hek
      exact hdisj (hek ▸ List.mem_map_of_mem Prod.fst he)
        (List.mem_cons.mpr (Or.inr (List.mem_cons_self _ _)))
  · intro huv
    exact hu_notmem (List.mem_cons.mpr (Or.inl huv))
  · intro e he
    constructor
    · intro hek
      exact hu_notmem (List.mem_cons.mpr
        (Or.inr (hek ▸ List.mem_map_of_mem Prod.fst he)))
    · intro hek
      exact hv_notmem (hek ▸ List.mem_map_of_mem Prod.fst he)

/-- Positions `p` and `p+1` of the re-sorted, order-swapped config hold the
two entries with exchanged orders; the length is unchanged. -/
theorem sortTabs_swapped_getElem (cfg : List (String × TabCfg))
    (hkeys : (cfg.map Prod.fst).Nodup)
    (hords : (cfg.map (fun e => e.2.order)).Nodup)
    (p : Nat) {u v : String × TabCfg}
    (hu : (sortTabs cfg)[p]? = some u)
    (hv : (sortTabs cfg)[p + 1]? = some v) :
    (sortTabs (cfg.map (swapOrderFn u v)))[p]? =
      some (v.1, { v.2 with order := u.2.order }) ∧
    (sortTabs (cfg.map (swapOrderFn u v)))[p + 1]? =
      some (u.1, { u.2 with order := v.2.order }) ∧
    (sortTabs (cfg.map (swapOrderFn u v))).length = (sortTabs cfg).length := by
  obtain ⟨hp1, -⟩ := List.getElem?_eq_some_iff.mp hu
  obtain ⟨hp2, -⟩ := List.getElem?_eq_some_iff.mp hv
  have hc := sortTabs_map_swap cfg hkeys hords p hu hv
  have hPlen : ((sortTabs cfg).take p).length = p := by
    rw [List.length_take]; omega
  refine ⟨?_, ?_, ?_⟩
  · rw [hc, List.getElem?_append_right (le_of_eq hPlen), hPlen]
    simp
  · rw [hc, List.getElem?_append_right (by omega), hPlen]
    have hone : p + 1 - p = 1 := by omega
    rw [hone]
    simp
  · rw [hc]
    simp only [List.length_append, List.length_cons, hPlen, List.length_drop]
    omega

/-- Where the clicked tab sits in the re-sorted, order-swapped sequence:
one position later when it was the lower neighbour, one position earlier
when it was the upper one. -/
theorem sortTabs_swapped_findIdx (cfg : List (String × TabCfg))
    (hkeys : (cfg.map Prod.fst).Nodup)
    (hords : (cfg.map (fun e => e.2.order)).Nodup)
    (p : Nat) {u v : String × TabCfg}
    (hu : (sortTabs cfg)[p]? = some u)
    (hv : (sortTabs cfg)[p + 1]? = some v) (tabId : String) :
    (tabId = u.1 →
      (sortTabs (cfg.map (swapOrderFn u v))).findIdx?
        (fun e => e.1 == tabId) = some (p + 1)) ∧
    (tabId = v.1 →
      (sortTabs (cfg.map (swapOrderFn u v))).findIdx?
        (fun e => e.1 == tabId) = some p) := by
  have hc := sortTabs_map_swap cfg hkeys hords p hu hv
  obtain ⟨hP, huv, -⟩ := sorted_decomp_key_facts cfg hkeys p hu hv
  have hPlen : ((sortTabs cfg).take p).length = p := by
    obtain ⟨hp1, -⟩ := List.getElem?_eq_some_iff.mp hu
    rw [List.length_take]; omega
  constructor
  · rintro rfl
    have hPnone : ((sortTabs cfg).take p).findIdx?
        (fun e => e.1 == u.1) = none := by
      rw [List.findIdx?_eq_none_iff]
      intro e he
      simp only [beq_eq_false_iff_ne]
      exact (hP e he).1
    rw [hc, List.findIdx?_append, hPnone, Option.none_or,
      List.findIdx?_cons, if_neg (by simp [Ne.symm huv]),
      List.findIdx?_cons, if_pos (by simp)]
    simp [hPlen, Nat.add_comm]
  · rintro rfl
    have hPnone : ((sortTabs cfg).take p).findIdx?
        (fun e => e.1 == v.1) = none := by
      rw [List.findIdx?_eq_none_iff]
      intro e he
      simp only [beq_eq_false_iff_ne]
      exact (hP e he).2
    rw [hc, List.findIdx?_append, hPnone, Option.none_or,
      List.findIdx?_cons, if_pos (by simp)]
    simp [hPlen]

/-- C8 (amended): on a config whose keys and whose `order` values are
pairwise distinct, reordering a tab up then down — when the tab is not
already first — restores every entry exactly; symmetrically down then up
when it is not last. The original unrestricted claim is false: at a
boundary the first move is a no-op while the second still swaps, and with
duplicate `order` values the first swap can exchange equal orders while the
second swaps a different pair. -/
theorem claim8_reorder_roundtrip (cfg : List (String × TabCfg))
    (tabId : String) (i : Nat)
    (hkeys : (cfg.map Prod.fst).Nodup)
    (hords : (cfg.map (fun e => e.2.order)).Nodup)
    (hfind : (sortTabs cfg).findIdx? (fun e => e.1 == tabId) = some i) :
    (0 < i →
      (swapTabOrder cfg tabId (-1)).bind
        (fun c => swapTabOrder c tabId 1) = some cfg) ∧
    (i + 1 < (sortTabs cfg).length →
      (swapTabOrder cfg tabId 1).bind
        (fun c => swapTabOrder c tabId (-1)) = some cfg) := by
  obtain ⟨hilen, hpred, -⟩ := List.findIdx?_eq_some_iff_getElem.mp hfind
  have hitab : (sortTabs cfg)[i].1 = tabId := by simpa using hpred
  constructor
  · intro hpos
    have hpi : i - 1 + 1 = i := by omega
    obtain ⟨u, hu⟩ : ∃ u, (sortTabs cfg)[i - 1]? = some u :=
      ⟨_, List.getElem?_eq_getElem (by omega)⟩
    obtain ⟨v, hv0⟩ : ∃ v, (sortTabs cfg)[i]? = some v :=
      ⟨_, List.getElem?_eq_getElem hilen⟩
    have hv : (sortTabs cfg)[i - 1 + 1]? = some v := by rw [hpi]; exact hv0
    have hkey : v.1 = tabId := by
      obtain ⟨hb, hveq⟩ := List.getElem?_eq_some_iff.mp hv0
      rw [← hveq]
      exact hitab
    have hkne : u.1 ≠ v.1 := sorted_keys_ne cfg hkeys (by omega) hu hv0
    have heval1 : swapTabOrder cfg tabId (-1) =
        some (cfg.map (swapOrderFn u v)) := by
      rw [swapTabOrder_eval cfg tabId (-1) i (i - 1) hfind (by omega)
          (by omega) hv0 hu,
        setTabOrder_swap_eq_map' cfg u v hkne]
    obtain ⟨he1, he2, hlen⟩ :=
      sortTabs_swapped_getElem cfg hkeys hords (i - 1) hu hv
    have hfind2 :=
      (sortTabs_swapped_findIdx cfg hkeys hords (i - 1) hu hv tabId).2 hkey.symm
    have hmu : u ∈ cfg := (sortTabs_perm cfg).mem_iff.mp (List.getElem?_mem hu)
    have hmv : v ∈ cfg := (sortTabs_perm cfg).mem_iff.mp (List.getElem?_mem hv0)
    have hkne2 : ((u.1, { u.2 with order := v.2.order }) :
        String × TabCfg).1 ≠ (v.1, { v.2 with order := u.2.order }).1 := hkne
    have heval2 : swapTabOrder (cfg.map (swapOrderFn u v)) tabId 1 =
        some cfg := by
      rw [swapTabOrder_eval (cfg.map (swapOrderFn u v)) tabId 1 (i - 1)
          (i - 1 + 1) hfind2 (by omega) (by rw [hlen]; omega) he1 he2,
        setTabOrder_swap_eq_map' (cfg.map (swapOrderFn u v)) _ _ hkne2,
        map_swapOrderFn_swapOrderFn cfg hkeys hmu hmv hkne]
    rw [heval1]
    exact heval2
  · intro hbound
    obtain ⟨u, hu⟩ : ∃ u, (sortTabs cfg)[i]? = some u :=
      ⟨_, List.getElem?_eq_getElem hilen⟩
    obtain ⟨v, hv⟩ : ∃ v, (sortTabs cfg)[i + 1]? = some v :=
      ⟨_, List.getElem?_eq_getElem hbound⟩
    have hkey : u.1 = tabId := by
      obtain ⟨hb, hueq⟩ := List.getElem?_eq_some_iff.mp hu
      rw [← hueq]
      exact hitab
    have hkne : u.1 ≠ v.1 := sorted_keys_ne cfg hkeys (by omega) hu hv
    have heval1 : swapTabOrder cfg tabId 1 =
        some (cfg.map (swapOrderFn u v)) := by
      rw [swapTabOrder_eval cfg tabId 1 i (i + 1) hfind (by omega)
          hbound hu hv,
        setTabOrder_swap_eq_map cfg u v hkne]
    obtain ⟨he1, he2, hlen⟩ :=
      sortTabs_swapped_getElem cfg hkeys hords i hu hv
    have hfind2 :=
      (sortTabs_swapped_findIdx cfg hkeys hords i hu hv tabId).1 hkey.symm
    have hmu : u ∈ cfg := (sortTabs_perm cfg).mem_iff.mp (List.getElem?_mem hu)
    have hmv : v ∈ cfg := (sortTabs_perm cfg).mem_iff.mp (List.getElem?_mem hv)
    have hkne2 : ((u.1, { u.2 with order := v.2.order }) :
        String × TabCfg).1 ≠ (v.1, { v.2 with order := u.2.order }).1 := hkne
    have heval2 : swapTabOrder (cfg.map (swapOrderFn u v)) tabId (-1) =
        some cfg := by
      rw [swapTabOrder_eval (cfg.map (swapOrderFn u v)) tabId (-1) (i + 1)
          i hfind2 (by omega) (by rw [hlen]; omega) he2 he1,
        setTabOrder_swap_eq_map (cfg.map (swapOrderFn u v)) _ _ hkne2,
        map_swapOrderFn_swapOrderFn cfg hkeys hmu hmv hkne]
    rw [heval1]
    exact heval2

/-- Counterexample to C8 as stated: in the default configuration the
description tab is first, so reorder(description, up) is a no-op, and the
following reorder(description, down) swaps it with firstMessage — the
original order values are NOT restored. -/
theorem claim8_counterexample :
    (swapTabOrder defaultTabConfig "description" (-1)).bind
      (fun c => swapTabOrder c "description" 1) ≠ some defaultTabConfig := by
  decide

/-- Witness for the amended C8 at the scenario tab (sorted index 2) of the
default configuration, in both directions. -/
theorem claim8_witness :
    ((swapTabOrder defaultTabConfig "scenario" (-1)).bind
      (fun c => swapTabOrder c "scenario" 1) = some defaultTabConfig) ∧
    ((swapTabOrder defaultTabConfig "scenario" 1).bind
      (fun c => swapTabOrder c "scenario" (-1)) = some defaultTabConfig) :=
  ⟨(claim8_reorder_roundtrip defaultTabConfig "scenario" 2 (by decide)
      (by decide) (by decide)).1 (by decide),
   (claim8_reorder_roundtrip defaultTabConfig "scenario" 2 (by decide)
      (by decide) (by decide)).2 (by decide)⟩
